import Mathlib

/-!
# Verification of the JAM-style Reports on-chain state machine

This file is a shallow embedding, in Lean 4, of the on-chain report
lifecycle of the `Reports` repository: the four extrinsic processors
(`processGuaranteeExtrinsic`, `processDisputeExtrinsic`,
`processAssuranceExtrinsic`, `processAccumulationQueue`) acting on the
`OnchainState` container with its buckets ρ (pending), ω (accumulation
queue), ξ (finalized history), ψ_B (bad reports) and ψ_O (offender
ledger).

Embedding conventions:

* The JavaScript implementation (`guaranteeProcessor.js`,
  `disputeProcessor` and `queueHandler` from the untyped sources,
  `state.js`, `pvmSimulator`, `assuranceProcessor.js`) is the source of
  truth where the `.js` and `.ts` variants differ; differences are noted
  in comments at the definitions concerned.
* JavaScript `Map` objects become association lists (`List (k × v)`);
  `Map.set` keeps the position of an existing key and appends a new one,
  `Map.delete` filters, and iteration order is insertion order, exactly
  as in JavaScript.  JavaScript `Set` objects become lists without
  duplicates, extended only after a membership check, as in the source.
* JavaScript numbers holding slots, epochs, core indices, gas and
  balances are modelled as `Int` (all the arithmetic performed on them
  in the source is integer arithmetic).
* External cryptography (Ed25519 `verifySignature`, SHA-256 inside
  `generateWorkDigest`) is out of scope per the specification and enters
  as explicit function parameters `verify` and `hash`.
* Throwing an exception that a processor catches becomes an `Option`/
  `Except` value; an uncaught throw that happens before any state
  mutation is modelled as returning the state unchanged.
-/

/-! ## Association-list maps mirroring JavaScript `Map` -/

/-- `Map.get`: first binding of the key, if any. -/
def mapGet {κ α : Type} [DecidableEq κ] (m : List (κ × α)) (k : κ) : Option α :=
  match m with
  | [] => none
  | (k', v) :: rest => if k = k' then some v else mapGet rest k

/-- `Map.has`. -/
def mapHas {κ α : Type} [DecidableEq κ] (m : List (κ × α)) (k : κ) : Bool :=
  (mapGet m k).isSome

/-- `Map.set`: replace the value at an existing key in place (JavaScript
keeps the original insertion position), append a fresh key at the end. -/
def mapSet {κ α : Type} [DecidableEq κ] (m : List (κ × α)) (k : κ) (v : α) :
    List (κ × α) :=
  if mapHas m k then
    m.map (fun p => if p.1 = k then (k, v) else p)
  else
    m ++ [(k, v)]

/-- `Map.delete`: drop the binding of the key, keep all other bindings in
order. -/
def mapDelete {κ α : Type} [DecidableEq κ] (m : List (κ × α)) (k : κ) :
    List (κ × α) :=
  match m with
  | [] => []
  | (a, b) :: rest => if a = k then mapDelete rest k else (a, b) :: mapDelete rest k

/-- `Set.add` on a duplicate-free list: append if not yet present. -/
def setAdd {α : Type} [DecidableEq α] (s : List α) (x : α) : List α :=
  if s.contains x then s else s ++ [x]

@[simp] theorem mapGet_nil {κ α : Type} [DecidableEq κ] (k : κ) :
    mapGet ([] : List (κ × α)) k = none := rfl

@[simp] theorem mapGet_cons {κ α : Type} [DecidableEq κ]
    (a : κ) (b : α) (rest : List (κ × α)) (k : κ) :
    mapGet ((a, b) :: rest) k = if k = a then some b else mapGet rest k := rfl

theorem mapGet_append {κ α : Type} [DecidableEq κ]
    (m₁ m₂ : List (κ × α)) (k : κ) :
    mapGet (m₁ ++ m₂) k =
      match mapGet m₁ k with
      | some v => some v
      | none => mapGet m₂ k := by
  induction m₁ with
  | nil => simp
  | cons p rest ih =>
    obtain ⟨a, b⟩ := p
    by_cases hk : k = a <;> simp [hk, ih]

theorem mapGet_replace_self {κ α : Type} [DecidableEq κ]
    (m : List (κ × α)) (k : κ) (v : α) (h : mapHas m k = true) :
    mapGet (m.map (fun p => if p.1 = k then (k, v) else p)) k = some v := by
  induction m with
  | nil => simp [mapHas] at h
  | cons p rest ih =>
    obtain ⟨a, b⟩ := p
    by_cases hk : a = k
    · simp [hk]
    · have hrest : mapHas rest k = true := by
        simp only [mapHas, mapGet_cons, if_neg (Ne.symm hk)] at h
        exact h
      simp [hk, Ne.symm hk, ih hrest]

theorem mapGet_replace_ne {κ α : Type} [DecidableEq κ]
    (m : List (κ × α)) (k k' : κ) (v : α) (h : k' ≠ k) :
    mapGet (m.map (fun p => if p.1 = k then (k, v) else p)) k' = mapGet m k' := by
  induction m with
  | nil => simp
  | cons p rest ih =>
    obtain ⟨a, b⟩ := p
    by_cases hk : a = k
    · subst hk
      simp [if_neg h, ih]
    · by_cases hck : k' = a
      · simp [hk, hck]
      · simp [hk, hck, ih]

theorem mapGet_mapSet_self {κ α : Type} [DecidableEq κ]
    (m : List (κ × α)) (k : κ) (v : α) : mapGet (mapSet m k v) k = some v := by
  unfold mapSet
  by_cases h : mapHas m k = true
  · rw [if_pos h]; exact mapGet_replace_self m k v h
  · rw [if_neg h]
    have hnone : mapGet m k = none := by
      cases hm : mapGet m k with
      | none => rfl
      | some v' => exact absurd (by simp [mapHas, hm]) h
    rw [mapGet_append, hnone]
    simp

theorem mapGet_mapSet_ne {κ α : Type} [DecidableEq κ]
    (m : List (κ × α)) (k k' : κ) (v : α) (h : k' ≠ k) :
    mapGet (mapSet m k v) k' = mapGet m k' := by
  unfold mapSet
  by_cases hh : mapHas m k = true
  · rw [if_pos hh]; exact mapGet_replace_ne m k k' v h
  · rw [if_neg hh, mapGet_append]
    cases hm : mapGet m k' with
    | some v' => rfl
    | none => simp [if_neg h]

theorem mapGet_mapDelete_self {κ α : Type} [DecidableEq κ]
    (m : List (κ × α)) (k : κ) : mapGet (mapDelete m k) k = none := by
  induction m with
  | nil => rfl
  | cons p rest ih =>
    obtain ⟨a, b⟩ := p
    by_cases hk : a = k
    · simpa [mapDelete, hk] using ih
    · simpa [mapDelete, hk, Ne.symm hk] using ih

theorem mapGet_mapDelete_ne {κ α : Type} [DecidableEq κ]
    (m : List (κ × α)) (k k' : κ) (h : k' ≠ k) :
    mapGet (mapDelete m k) k' = mapGet m k' := by
  induction m with
  | nil => rfl
  | cons p rest ih =>
    obtain ⟨a, b⟩ := p
    by_cases hk : a = k
    · subst hk
      simpa [mapDelete, if_neg h] using ih
    · by_cases hck : k' = a
      · simp [mapDelete, hk, hck]
      · simp [mapDelete, hk, hck, ih]

theorem mapHas_iff_get {κ α : Type} [DecidableEq κ]
    (m : List (κ × α)) (k : κ) :
    mapHas m k = true ↔ ∃ v, mapGet m k = some v := by
  simp [mapHas, Option.isSome_iff_exists]

/-! ## Domain model (`src/models`)

The constructor validation of the JavaScript classes (non-empty strings,
positive gas, …) raises `ValidationError` before any state is touched;
the structures below model successfully constructed values. -/

/-- `WorkItem` (`src/models/WorkItem`): one program+input execution unit. -/
structure WorkItem where
  id : String
  programHash : String
  inputData : String
  gasLimit : Int
deriving DecidableEq, Repr

/-- The `authorizationServiceDetails` record `{h, u, f}` of a
`WorkPackage` (`src/models/WorkPackage`). -/
structure ServiceDetails where
  h : String
  u : String
  f : String
deriving DecidableEq, Repr

/-- `WorkPackage` (`src/models/WorkPackage`). -/
structure WorkPackage where
  authorizationToken : String
  authorizationServiceDetails : ServiceDetails
  context : String
  workItems : List WorkItem
deriving DecidableEq, Repr

/-- `RefinementContext` (`src/models/RefinementContext`). -/
structure RefinementContext where
  anchorBlockRoot : String
  anchorBlockNumber : Int
  beefyMmrRoot : String
  currentSlot : Int
  currentEpoch : Int
  currentGuarantors : List String
  previousGuarantors : List String
deriving DecidableEq, Repr

/-- `AvailabilitySpec` (`src/models/AvailabilitySpec`). -/
structure AvailabilitySpec where
  totalFragments : Int
  dataFragments : Int
  fragmentHashes : List String
deriving DecidableEq, Repr

/-- `WorkReport`.  The class itself is not among the provided sources
(only its callers are).  Modelled from the spec: §3 lists its fields as
workPackage, refinementContext, pvmOutput, gasUsed, availabilitySpec
(or null), guarantorSignature, guarantorPublicKey, coreIndex, slot,
dependencies (sequence of WorkDigest hashes); this matches the
ten-argument constructor calls in `guarantor.js` and the scripts. -/
structure WorkReport where
  workPackage : WorkPackage
  refinementContext : RefinementContext
  pvmOutput : String
  gasUsed : Int
  availabilitySpec : Option AvailabilitySpec
  guarantorSignature : String
  guarantorPublicKey : String
  coreIndex : Int
  slot : Int
  dependencies : List String
deriving DecidableEq, Repr

/-- The signable view of a report.  Modelled from the spec: §4.1 says
`signable(report)` = canonical(report with the guarantorSignature field
omitted); all other fields (the guarantorPublicKey included) remain. -/
structure SignableReport where
  workPackage : WorkPackage
  refinementContext : RefinementContext
  pvmOutput : String
  gasUsed : Int
  availabilitySpec : Option AvailabilitySpec
  guarantorPublicKey : String
  coreIndex : Int
  slot : Int
  dependencies : List String
deriving DecidableEq, Repr

/-- `WorkReport.toSignableObject`.  Modelled from the spec (§4.1): the
report with its `guarantorSignature` field omitted. -/
def WorkReport.toSignableObject (r : WorkReport) : SignableReport :=
  { workPackage := r.workPackage
    refinementContext := r.refinementContext
    pvmOutput := r.pvmOutput
    gasUsed := r.gasUsed
    availabilitySpec := r.availabilitySpec
    guarantorPublicKey := r.guarantorPublicKey
    coreIndex := r.coreIndex
    slot := r.slot
    dependencies := r.dependencies }

/-- `WorkDigest` (`src/models/WorkDigest`): wrapper around the hash
string. -/
structure WorkDigest where
  hash : String
deriving DecidableEq, Repr

/-- `generateWorkDigest` (`src/offchain/encoder`): SHA-256 over the
canonically serialized signable object.  The serializer-plus-SHA-256
composition is external cryptography and enters as the function
parameter `hash`. -/
def generateWorkDigest (hash : SignableReport → String) (report : WorkReport) :
    WorkDigest :=
  ⟨hash report.toSignableObject⟩

/-! ## Constants (`src/onchain/constants.ts`) -/

structure OnchainConstantsShape where
  SUPER_MAJORITY_THRESHOLD_NUMERATOR : Int
  SUPER_MAJORITY_THRESHOLD_DENOMINATOR : Int
  REPORT_TIMEOUT_SLOTS : Int
  MAX_DEPENDENCIES : Int
  MAX_WORK_REPORT_GAS : Int
  MIN_SERVICE_ITEM_GAS : Int
  MAX_CORE_INDEX : Int
  MAX_VALIDATOR_INDEX : Int
  ANCHOR_MAX_AGE_SLOTS : Int
  RECENT_HISTORY_LOOKUP_SLOTS : Int

def ONCHAIN_CONSTANTS : OnchainConstantsShape :=
  { SUPER_MAJORITY_THRESHOLD_NUMERATOR := 2
    SUPER_MAJORITY_THRESHOLD_DENOMINATOR := 3
    REPORT_TIMEOUT_SLOTS := 100
    MAX_DEPENDENCIES := 10
    MAX_WORK_REPORT_GAS := 200000
    MIN_SERVICE_ITEM_GAS := 10
    MAX_CORE_INDEX := 1023
    MAX_VALIDATOR_INDEX := 1023
    ANCHOR_MAX_AGE_SLOTS := 50
    RECENT_HISTORY_LOOKUP_SLOTS := 200 }

/-! ## On-chain state (`src/onchain/state.js`) -/

/-- Report lifecycle status inside ω. -/
inductive ReportStatus where
  | pending
  | ready
  | processing
deriving DecidableEq, Repr

/-- A ρ entry: report, unique endorsing guarantor keys, submission slot. -/
structure PendingReportEntry where
  report : WorkReport
  receivedSignatures : List String
  submissionSlot : Int
deriving DecidableEq, Repr

/-- An ω entry. -/
structure AccumulationEntry where
  report : WorkReport
  status : ReportStatus
deriving DecidableEq, Repr

/-- A ψ_B entry. -/
structure BadReportRecord where
  reason : String
  disputedBy : List String
deriving DecidableEq, Repr

/-- A ψ_O entry. -/
structure OffenderRecord where
  disputeCount : Int
  lastDisputeSlot : Int
deriving DecidableEq, Repr

/-- An account of the conceptual global state (`pvmSimulator`). -/
structure Account where
  balance : Int
deriving DecidableEq, Repr

/-- A service registry entry (only its optional `codeHash` is ever read,
and only inside checks whose throws are commented out). -/
structure ServiceEntry where
  codeHash : Option String
deriving DecidableEq, Repr

/-- The conceptual global state: `accounts`, `coreStatus` and
`serviceRegistry` from `state.js`, plus the `data` map and `log` string
that `pvmSimulator` reads and writes (absent fields of the fresh state
behave as an empty map / empty string). -/
structure GlobalState where
  accounts : List (String × Account)
  coreStatus : List (Int × String)
  serviceRegistry : List (String × ServiceEntry)
  data : List (String × String)
  log : String
deriving DecidableEq, Repr

/-- `OnchainState` (`state.js`), with the Greek bucket names
transliterated as the spec sanctions: ρ→rho, ω→omega, ξ→xi,
ψ_B→psi_B, ψ_O→psi_O. -/
structure OnchainState where
  rho : List (String × PendingReportEntry)
  omega : List (String × AccumulationEntry)
  xi : List (String × WorkReport)
  psi_B : List (String × BadReportRecord)
  psi_O : List (String × OffenderRecord)
  globalState : GlobalState
deriving DecidableEq, Repr

/-- The freshly constructed (or `reset`) `OnchainState`. -/
def initialOnchainState : OnchainState :=
  { rho := []
    omega := []
    xi := []
    psi_B := []
    psi_O := []
    globalState := { accounts := [], coreStatus := [], serviceRegistry := [],
                     data := [], log := "" } }

/-- `OnchainState.getReportByDigest` (`state.js`): ξ first, then ρ, then
ω. -/
def getReportByDigest (s : OnchainState) (digestHash : String) :
    Option WorkReport :=
  match mapGet s.xi digestHash with
  | some r => some r
  | none =>
    match mapGet s.rho digestHash with
    | some e => some e.report
    | none =>
      match mapGet s.omega digestHash with
      | some e => some e.report
      | none => none

/-! ## Guarantee processor (`src/onchain/extrinsics/guaranteeProcessor.js`) -/

/-- `Math.ceil(totalGuarantors * 2 / 3)` for a non-negative integer count
of guarantors (the sum of two list lengths).  For natural `n`,
`⌈2n/3⌉ = (2n + 2) / 3` in truncated division, which coincides with the
JavaScript float computation for every list length. -/
def requiredSignatures (totalGuarantors : Nat) : Nat :=
  (2 * totalGuarantors + 2) / 3

/-- The ψ_O charge repeated verbatim in `guaranteeProcessor` (validation
failure), `disputeProcessor` and `queueHandler` (accumulation failure):
increment `disputeCount` and stamp `lastDisputeSlot`, creating the
record with count 1 if absent. -/
def chargeOffender (psi_O : List (String × OffenderRecord))
    (publicKey : String) (currentSlot : Int) : List (String × OffenderRecord) :=
  match mapGet psi_O publicKey with
  | some rec =>
    mapSet psi_O publicKey
      { disputeCount := rec.disputeCount + 1, lastDisputeSlot := currentSlot }
  | none =>
    mapSet psi_O publicKey { disputeCount := 1, lastDisputeSlot := currentSlot }

/-- `validateWorkReport` (guaranteeProcessor.js lines 19-132), returning
`some errorMessage` for a thrown `ProtocolError` and `none` on success.

Checks whose `throw` is commented out in the source contribute nothing
and are omitted: the mock `bad_beefy_mmr` / `bad_state_root` comparisons
(lines 32-37), `bad_service_id` (lines 44-47), `bad_code_hash` (lines
51-54, active only in the TypeScript variant) and
`duplicated_package_in_report` (lines 121-123).  `verify` stands for
`verifySignature ∘ base64ToPublicKey` applied to the signable object,
the signature and the guarantor public key. -/
def validateWorkReport (verify : SignableReport → String → String → Bool)
    (hash : SignableReport → String) (report : WorkReport)
    (onchainState : OnchainState) (currentSlot : Int)
    (currentBlockDigests : List WorkDigest) : Option String :=
  if ¬ verify report.toSignableObject report.guarantorSignature
      report.guarantorPublicKey then
    some "bad_signature: Work-Report signature is invalid."
  else if currentSlot - report.refinementContext.anchorBlockNumber >
      ONCHAIN_CONSTANTS.ANCHOR_MAX_AGE_SLOTS then
    some "anchor_not_recent: Context anchor block is too old."
  else if report.coreIndex < 0 ∨ report.coreIndex > ONCHAIN_CONSTANTS.MAX_CORE_INDEX then
    some "bad_core_index: Core index is out of bounds."
  else
    -- Guarantor assignment (lines 56-75).  The source's locals
    -- `reportEpoch = Math.floor(reportSlot / REPORT_TIMEOUT_SLOTS)`,
    -- `currentEpoch` and `isGuarantorAssigned` are inlined here.
    if ¬ ((Int.fdiv report.slot ONCHAIN_CONSTANTS.REPORT_TIMEOUT_SLOTS =
            report.refinementContext.currentEpoch ∧
          report.refinementContext.currentGuarantors.contains
            report.guarantorPublicKey) ∨
         (Int.fdiv report.slot ONCHAIN_CONSTANTS.REPORT_TIMEOUT_SLOTS =
            report.refinementContext.currentEpoch - 1 ∧
          report.refinementContext.previousGuarantors.contains
            report.guarantorPublicKey)) then
      some "wrong_assignment / not_authorized: Unexpected guarantor for work report core or not authorized."
    else if mapGet onchainState.globalState.coreStatus report.coreIndex =
        some "engaged" then
      some ("core_engaged: Core " ++ toString report.coreIndex ++ " is not available.")
    else if report.slot > currentSlot then
      some "future_report_slot: Report refers to a slot in the future."
    else if currentSlot - report.slot > ONCHAIN_CONSTANTS.REPORT_TIMEOUT_SLOTS then
      some "report_before_last_rotation: Report guarantee slot is too old."
    else if (report.dependencies.length : Int) > ONCHAIN_CONSTANTS.MAX_DEPENDENCIES then
      some "too_many_dependencies: Work report has too many dependencies."
    else
      match report.dependencies.find? (fun depHash =>
          ¬ (mapHas onchainState.xi depHash ∨ mapHas onchainState.rho depHash ∨
             currentBlockDigests.any (fun d => d.hash = depHash))) with
      | some depHash =>
        some ("dependency_missing / segment_root_lookup_invalid: Dependency " ++
          depHash ++ " not found.")
      | none =>
        if report.gasUsed > ONCHAIN_CONSTANTS.MAX_WORK_REPORT_GAS then
          some "too_high_work_report_gas: Work report per core gas is too high."
        else if report.workPackage.workItems.any
            (fun item => item.gasLimit < ONCHAIN_CONSTANTS.MIN_SERVICE_ITEM_GAS) then
          some "service_item_gas_too_low: Accumulate gas is below the service minimum."
        else if mapHas onchainState.xi (generateWorkDigest hash report).hash then
          some "duplicate_package_in_recent_history: Package was already finalized."
        else
          none

/-- The tail of `processGuaranteeExtrinsic` (lines 187-212): super-majority
check, promotion to ω, and the timeout eviction, applied to the ρ entry
`reportEntry` already merged into the state. -/
def checkPromotionAndTimeout (report : WorkReport) (onchainState : OnchainState)
    (currentSlot : Int) (digestHash : String) (reportEntry : PendingReportEntry) :
    Bool × OnchainState :=
  let totalGuarantors := report.refinementContext.currentGuarantors.length +
    report.refinementContext.previousGuarantors.length
  let required := requiredSignatures totalGuarantors
  if reportEntry.receivedSignatures.length ≥ required then
    (true,
      { onchainState with
        rho := mapDelete onchainState.rho digestHash
        omega := mapSet onchainState.omega digestHash
          { report := report, status := ReportStatus.ready } })
  else if currentSlot - reportEntry.submissionSlot >
      ONCHAIN_CONSTANTS.REPORT_TIMEOUT_SLOTS then
    (false,
      { onchainState with
        rho := mapDelete onchainState.rho digestHash
        psi_B := mapSet onchainState.psi_B digestHash
          { reason := "timed_out", disputedBy := ["system_timeout"] } })
  else
    (true, onchainState)

/-- `processGuaranteeExtrinsic` (guaranteeProcessor.js lines 142-213).
Returns the boolean result together with the mutated state. -/
def processGuaranteeExtrinsic (verify : SignableReport → String → String → Bool)
    (hash : SignableReport → String) (report : WorkReport)
    (onchainState : OnchainState) (currentSlot : Int)
    (currentBlockDigests : List WorkDigest) : Bool × OnchainState :=
  match validateWorkReport verify hash report onchainState currentSlot
      currentBlockDigests with
  | some errorMessage =>
    let reportDigest := generateWorkDigest hash report
    (false,
      { onchainState with
        psi_B := mapSet onchainState.psi_B reportDigest.hash
          { reason := errorMessage, disputedBy := ["system_validation"] }
        psi_O := chargeOffender onchainState.psi_O report.guarantorPublicKey
          currentSlot })
  | none =>
    let digestHash := (generateWorkDigest hash report).hash
    match mapGet onchainState.rho digestHash with
    | none =>
      let reportEntry : PendingReportEntry :=
        { report := report
          receivedSignatures := [report.guarantorPublicKey]
          submissionSlot := currentSlot }
      checkPromotionAndTimeout report
        { onchainState with rho := mapSet onchainState.rho digestHash reportEntry }
        currentSlot digestHash reportEntry
    | some reportEntry =>
      if reportEntry.receivedSignatures.contains report.guarantorPublicKey then
        (false, onchainState)
      else
        let reportEntry :=
          { reportEntry with
            receivedSignatures :=
              reportEntry.receivedSignatures ++ [report.guarantorPublicKey] }
        checkPromotionAndTimeout report
          { onchainState with
            rho := mapSet onchainState.rho digestHash reportEntry }
          currentSlot digestHash reportEntry

/-! ## Dispute processor (`disputeProcessor`, untyped variant) -/

/-- The dispute extrinsic payload. -/
structure DisputeExtrinsic where
  disputedDigestHash : String
  disputerPublicKey : String
  reason : String
deriving DecidableEq, Repr

/-- `processDisputeExtrinsic`.  Both source variants are identical: early
return when `getReportByDigest` misses; remove from ρ and from ω; a ξ-only
hit is a late dispute that leaves ξ untouched; then insert-or-merge
ψ_B and charge ψ_O.  The `ProtocolError` thrown when no report was
located is unreachable after the early return and would in any case
propagate before any mutation, so it is modelled as returning the state
unchanged. -/
def processDisputeExtrinsic (dispute : DisputeExtrinsic)
    (onchainState : OnchainState) (currentSlot : Int) : OnchainState :=
  let d := dispute.disputedDigestHash
  if (getReportByDigest onchainState d).isNone then
    onchainState
  else
    let (disputedReport₁, rho') :
        Option WorkReport × List (String × PendingReportEntry) :=
      match mapGet onchainState.rho d with
      | some entry => (some entry.report, mapDelete onchainState.rho d)
      | none => (none, onchainState.rho)
    let (disputedReport₂, omega') :
        Option WorkReport × List (String × AccumulationEntry) :=
      match mapGet onchainState.omega d with
      | some entry => (some entry.report, mapDelete onchainState.omega d)
      | none => (disputedReport₁, onchainState.omega)
    let disputedReport : Option WorkReport :=
      match disputedReport₂ with
      | some r => some r
      | none => mapGet onchainState.xi d
    match disputedReport with
    | none => onchainState
    | some disputed =>
      let psi_B' :=
        match mapGet onchainState.psi_B d with
        | some existing =>
          mapSet onchainState.psi_B d
            { existing with
              disputedBy := setAdd existing.disputedBy dispute.disputerPublicKey }
        | none =>
          mapSet onchainState.psi_B d
            { reason := dispute.reason
              disputedBy := [dispute.disputerPublicKey] }
      { onchainState with
        rho := rho'
        omega := omega'
        psi_B := psi_B'
        psi_O := chargeOffender onchainState.psi_O disputed.guarantorPublicKey
          currentSlot }

/-! ## Assurance processor (`assuranceProcessor.js`) -/

/-- The assurance extrinsic payload. -/
structure AssuranceData where
  reportHash : String
  affirmingParty : String
  targetDisputeHash : Option String
  reason : Option String
deriving DecidableEq, Repr

/-- `processAssuranceExtrinsic`: a conceptual hook; the source only logs
and performs no state change. -/
def processAssuranceExtrinsic (_assuranceData : AssuranceData)
    (onchainState : OnchainState) (_currentSlot : Int) : OnchainState :=
  onchainState

/-! ## Ψ_A PVM simulation (`pvmSimulator`) -/

/-- A state delta produced by `simulatePsiAPVM`: optional per-section
overrides. -/
structure StateDelta where
  accounts : Option (List (String × Account))
  data : Option (List (String × String))
  log : Option String
deriving DecidableEq, Repr

/-- `simulatePsiAPVM`.  `parseTransfer` and `parseUpdate` stand for
`JSON.parse` of the work item's `inputData` destructured as
`{from, to, amount}` and `{key, value}` respectively; a parse failure
(`none`) models the `JSON.parse` throw, which the simulator's catch
converts into a `PVMExecutionError` like every other failure. -/
def simulatePsiAPVM (parseTransfer : String → Option (String × String × Int))
    (parseUpdate : String → Option (String × String)) (workItem : WorkItem)
    (currentGlobalState : GlobalState) : Except String StateDelta :=
  let inner : Except String (StateDelta × Int) :=
    if workItem.programHash = "0xtransfer" then
      match parseTransfer workItem.inputData with
      | none => Except.error "Unexpected token in JSON input."
      | some (src, dst, amount) =>
        match mapGet currentGlobalState.accounts src with
        | some srcAccount =>
          if srcAccount.balance ≥ amount then
            let dstBalance :=
              match mapGet currentGlobalState.accounts dst with
              | some dstAccount => dstAccount.balance
              | none => 0
            Except.ok
              ({ accounts := some (mapSet
                    (mapSet currentGlobalState.accounts src
                      { balance := srcAccount.balance - amount })
                    dst { balance := dstBalance + amount })
                 data := none, log := none }, 50)
          else
            Except.error "Insufficient balance or invalid accounts for transfer."
        | none =>
          Except.error "Insufficient balance or invalid accounts for transfer."
    else if workItem.programHash = "0xupdateData" then
      match parseUpdate workItem.inputData with
      | none => Except.error "Unexpected token in JSON input."
      | some (key, value) =>
        Except.ok
          ({ accounts := none
             data := some (mapSet currentGlobalState.data key value)
             log := none }, 20)
    else
      Except.ok
        ({ accounts := none, data := none
           log := some (currentGlobalState.log ++ "Executed " ++
             workItem.programHash ++ " with input " ++ workItem.inputData ++ ".") },
          10)
  match inner with
  | Except.error message =>
    Except.error ("Ψ_A PVM execution failed for Work-Item " ++ workItem.id ++
      ": " ++ message)
  | Except.ok (stateDelta, gasConsumed) =>
    if gasConsumed > workItem.gasLimit then
      Except.error ("Ψ_A PVM execution failed for Work-Item " ++ workItem.id ++
        ": Gas limit exceeded for Work-Item " ++ workItem.id ++ ". Consumed: " ++
        toString gasConsumed ++ ", Limit: " ++ toString workItem.gasLimit)
    else
      Except.ok stateDelta

/-- `applyDelta` (`stateIntegrator`).  The module is not among the
provided sources.  Modelled from the spec: §4.5.3 — the optional
`accounts` override is merged by key, replacing account records; the
optional `data` map is shallow-merged; the optional `log` is a string
append; fields absent from the delta are unchanged. -/
def applyDelta (globalState : GlobalState) (stateDelta : StateDelta) :
    GlobalState :=
  let accounts' :=
    match stateDelta.accounts with
    | some overrides =>
      overrides.foldl (fun acc p => mapSet acc p.1 p.2) globalState.accounts
    | none => globalState.accounts
  let data' :=
    match stateDelta.data with
    | some overrides =>
      overrides.foldl (fun acc p => mapSet acc p.1 p.2) globalState.data
    | none => globalState.data
  let log' :=
    match stateDelta.log with
    | some appended => globalState.log ++ appended
    | none => globalState.log
  { globalState with accounts := accounts', data := data', log := log' }

/-! ## Accumulation queue handler (`queueHandler`, untyped variant) -/

/-- One pass of the `while (head < queue.length)` loop of
`topologicalSort`: pop the front of the pending queue, decrement every
neighbor's in-degree, enqueue neighbors whose degree reaches zero.

The fuel bounds the number of loop iterations.  Each digest enters the
queue at most once (it is seeded when its initial in-degree is zero, or
pushed at the unique moment its strictly decreasing in-degree reaches
zero), so the queue never holds more than twice the node count and the
callers' fuel is never exhausted. -/
def kahnLoop : Nat → List (String × List String) → List (String × Int) →
    List String → List String → List String
  | 0, _, _, _, sortedOrder => sortedOrder
  | _ + 1, _, _, [], sortedOrder => sortedOrder
  | fuel + 1, graph, inDegree, currentDigest :: pending, sortedOrder =>
    let neighbors :=
      match mapGet graph currentDigest with
      | some ns => ns
      | none => []
    let step := neighbors.foldl
      (fun (acc : List (String × Int) × List String) neighborDigest =>
        let updatedDegree :=
          (match mapGet acc.1 neighborDigest with
           | some degree => degree
           | none => 0) - 1
        (mapSet acc.1 neighborDigest updatedDegree,
         if updatedDegree = 0 then acc.2 ++ [neighborDigest] else acc.2))
      (inDegree, [])
    kahnLoop fuel graph step.1 (pending ++ step.2)
      (sortedOrder ++ [currentDigest])

/-- `topologicalSort` (the Q function): Kahn's algorithm over the
intra-ω dependency graph, seeded and iterated in the `Map` insertion
order of ω. -/
def topologicalSort (accumulationQueue : List (String × AccumulationEntry)) :
    List String :=
  let graphInit : List (String × List String) :=
    accumulationQueue.map (fun p => (p.1, []))
  let inDegreeInit : List (String × Int) :=
    accumulationQueue.map (fun p => (p.1, 0))
  let built := accumulationQueue.foldl
    (fun (acc : List (String × List String) × List (String × Int)) p =>
      p.2.report.dependencies.foldl
        (fun (acc : List (String × List String) × List (String × Int)) depHash =>
          if mapHas accumulationQueue depHash then
            (mapSet acc.1 depHash
              (setAdd (match mapGet acc.1 depHash with
                       | some ns => ns
                       | none => []) p.1),
             mapSet acc.2 p.1
               ((match mapGet acc.2 p.1 with
                 | some degree => degree
                 | none => 0) + 1))
          else acc)
        acc)
    (graphInit, inDegreeInit)
  let queue : List String :=
    built.2.filterMap (fun p => if p.2 = 0 then some p.1 else none)
  kahnLoop (accumulationQueue.length * accumulationQueue.length +
    accumulationQueue.length + 1) built.1 built.2 queue []

/-- The `for (const workItem of report.workPackage.workItems)` loop of
`processAccumulationQueue`: run Ψ_A per item, integrating each delta
into the global state as it is produced.  On a failure the global state
reached so far — including the deltas of the already-successful items —
is returned alongside the error, exactly as in the source, where
`onchainState.globalState` has already been reassigned item by item when
the catch block runs. -/
def runWorkItems (parseTransfer : String → Option (String × String × Int))
    (parseUpdate : String → Option (String × String)) :
    List WorkItem → GlobalState → GlobalState × Option String
  | [], globalState => (globalState, none)
  | workItem :: rest, globalState =>
    match simulatePsiAPVM parseTransfer parseUpdate workItem globalState with
    | Except.error message => (globalState, some message)
    | Except.ok stateDelta =>
      runWorkItems parseTransfer parseUpdate rest (applyDelta globalState stateDelta)

/-- One iteration of the accumulation sweep for a digest of the sorted
order (queueHandler lines 83-126). -/
def accumulateDigest (parseTransfer : String → Option (String × String × Int))
    (parseUpdate : String → Option (String × String)) (currentSlot : Int)
    (onchainState : OnchainState) (digestHash : String) : OnchainState :=
  match mapGet onchainState.omega digestHash with
  | none => onchainState
  | some entry =>
    if entry.status ≠ ReportStatus.ready then onchainState
    else
      let report := entry.report
      let onchainState :=
        { onchainState with
          omega := mapSet onchainState.omega digestHash
            { entry with status := ReportStatus.processing } }
      match runWorkItems parseTransfer parseUpdate
          report.workPackage.workItems onchainState.globalState with
      | (globalState', none) =>
        { onchainState with
          globalState := globalState'
          omega := mapDelete onchainState.omega digestHash
          xi := mapSet onchainState.xi digestHash report }
      | (globalState', some message) =>
        { onchainState with
          globalState := globalState'
          omega := mapDelete onchainState.omega digestHash
          psi_B := mapSet onchainState.psi_B digestHash
            { reason := "accumulation_failed: " ++ message
              disputedBy := ["system_accumulation"] }
          psi_O := chargeOffender onchainState.psi_O report.guarantorPublicKey
            currentSlot }

/-- `processAccumulationQueue` (queueHandler lines 77-128): sweep the
topologically sorted ready reports. -/
def processAccumulationQueue
    (parseTransfer : String → Option (String × String × Int))
    (parseUpdate : String → Option (String × String))
    (onchainState : OnchainState) (currentSlot : Int) : OnchainState :=
  let reportsToAccumulateDigests := topologicalSort onchainState.omega
  reportsToAccumulateDigests.foldl
    (accumulateDigest parseTransfer parseUpdate currentSlot) onchainState

/-! ## Concrete fixtures

Concrete instantiations of the external-interface parameters and small
concrete model values, used by counterexamples and by the witnesses of
the conditional theorems. -/

/-- A signature oracle that accepts everything: Ed25519 verification is
external, and any report signed by its guarantor verifies. -/
def fixVerify : SignableReport → String → String → Bool := fun _ _ _ => true

/-- A concrete stand-in for SHA-256 over the canonical encoding; on the
fixture reports (which carry pairwise distinct `pvmOutput`) it is
collision-free. -/
def fixHash : SignableReport → String := fun s => s.pvmOutput

/-- A concrete stand-in for `JSON.parse` of transfer inputs (never
needed by the fixture work items, which avoid the JSON branches). -/
def fixParseTransfer : String → Option (String × String × Int) := fun _ => none

/-- A concrete stand-in for `JSON.parse` of update-data inputs. -/
def fixParseUpdate : String → Option (String × String) := fun _ => none

/-- Context with a single current guarantor (promotion threshold 1). -/
def fixCtx1 : RefinementContext :=
  { anchorBlockRoot := "root", anchorBlockNumber := 99, beefyMmrRoot := "mmr",
    currentSlot := 100, currentEpoch := 1, currentGuarantors := ["g1"],
    previousGuarantors := [] }

/-- Context with two current guarantors (promotion threshold 2). -/
def fixCtx2 : RefinementContext :=
  { fixCtx1 with currentGuarantors := ["g1", "g2"] }

/-- Context with four current guarantors (promotion threshold 3). -/
def fixCtx4 : RefinementContext :=
  { fixCtx1 with currentGuarantors := ["g1", "g2", "g3", "g4"] }

/-- A work item that takes the logging branch of Ψ_A (gas 10 ≤ 50). -/
def fixItemLog : WorkItem :=
  { id := "w1", programHash := "0xlog", inputData := "x", gasLimit := 50 }

/-- A work item whose gas limit 5 is below the 10 units the logging
branch consumes: Ψ_A fails on it. -/
def fixItemBoom : WorkItem :=
  { id := "w2", programHash := "0xboom", inputData := "y", gasLimit := 5 }

/-- A work package whose service id `svc` is never registered. -/
def fixPackage : WorkPackage :=
  { authorizationToken := "token"
    authorizationServiceDetails := { h := "host", u := "svc", f := "fn" }
    context := "ctx", workItems := [fixItemLog] }

/-- A well-formed report by `g1` under the single-guarantor context. -/
def fixReport1 : WorkReport :=
  { workPackage := fixPackage, refinementContext := fixCtx1,
    pvmOutput := "digest-one", gasUsed := 500, availabilitySpec := none,
    guarantorSignature := "sig1", guarantorPublicKey := "g1", coreIndex := 0,
    slot := 100, dependencies := [] }

/-- A well-formed report by `g1` under the two-guarantor context (stays
pending after one endorsement). -/
def fixReport2 : WorkReport :=
  { fixReport1 with refinementContext := fixCtx2, pvmOutput := "digest-two" }

/-- A report whose second work item fails mid-accumulation. -/
def fixReportBoom : WorkReport :=
  { fixReport1 with
    workPackage := { fixPackage with workItems := [fixItemLog, fixItemBoom] }
    pvmOutput := "digest-boom" }

/-- A state holding only the failing report, ready in ω. -/
def fixStateBoom : OnchainState :=
  { initialOnchainState with
    omega := [("digest-boom", { report := fixReportBoom,
                                status := ReportStatus.ready })] }

/-- Two ready, dependency-free ω entries in one insertion order… -/
def fixOmegaAB : List (String × AccumulationEntry) :=
  [("aa", { report := fixReport1, status := ReportStatus.ready }),
   ("bb", { report := fixReport2, status := ReportStatus.ready })]

/-- …and the same two entries in the opposite insertion order. -/
def fixOmegaBA : List (String × AccumulationEntry) :=
  [("bb", { report := fixReport2, status := ReportStatus.ready }),
   ("aa", { report := fixReport1, status := ReportStatus.ready })]

/-! ## C2 — the `bad_service_id` check is commented out -/

/-- C2 counterexample: `fixReport2`'s service id `svc` has no entry in
the (empty) service registry, yet `processGuaranteeExtrinsic` does not
reject it: it returns `true`, records nothing in ψ_B, and inserts the
digest into ρ — contradicting the claim that such a report is rejected
with `bad_service_id`. -/
theorem bad_service_id_counterexample :
    mapGet initialOnchainState.globalState.serviceRegistry
      fixReport2.workPackage.authorizationServiceDetails.u = none ∧
    (processGuaranteeExtrinsic fixVerify fixHash fixReport2
      initialOnchainState 100 []).1 = true ∧
    mapHas (processGuaranteeExtrinsic fixVerify fixHash fixReport2
      initialOnchainState 100 []).2.rho
      (generateWorkDigest fixHash fixReport2).hash = true ∧
    (processGuaranteeExtrinsic fixVerify fixHash fixReport2
      initialOnchainState 100 []).2.psi_B = [] := by
  decide

/-- C2 (amended): validation is independent of the service registry —
the `bad_service_id` (and `bad_code_hash`) branches of the source have
their throws commented out, so replacing the registry by any other one
never changes the validation outcome; in particular a report whose
service id is unregistered is not rejected on that ground. -/
theorem validateWorkReport_serviceRegistry_independent
    (verify : SignableReport → String → String → Bool)
    (hash : SignableReport → String) (report : WorkReport)
    (onchainState : OnchainState) (currentSlot : Int)
    (currentBlockDigests : List WorkDigest)
    (registry : List (String × ServiceEntry)) :
    validateWorkReport verify hash report
      { onchainState with
        globalState := { onchainState.globalState with serviceRegistry := registry } }
      currentSlot currentBlockDigests =
    validateWorkReport verify hash report onchainState currentSlot
      currentBlockDigests := rfl

/-! ## C3 — accumulation failure does not roll the global state back -/

/-- C3: the source applies each work item's delta to
`onchainState.globalState` as it is produced and its catch block does
not restore the snapshot, so when `fixReportBoom`'s second item fails,
the delta of the first (successful) item — the log append — survives in
`globalState` even though the report is routed to ψ_B: the claimed
roll-back to the value at the start of the report's processing does not
happen.  (cf. §4.5.2 of the spec, which mandates the roll-back.) -/
theorem accumulation_no_rollback_demo :
    (processAccumulationQueue fixParseTransfer fixParseUpdate fixStateBoom
      5).globalState.log = "Executed 0xlog with input x." ∧
    fixStateBoom.globalState.log = "" ∧
    mapGet (processAccumulationQueue fixParseTransfer fixParseUpdate
      fixStateBoom 5).psi_B "digest-boom" =
      some { reason := "accumulation_failed: Ψ_A PVM execution failed for Work-Item w2: Gas limit exceeded for Work-Item w2. Consumed: 10, Limit: 5"
             disputedBy := ["system_accumulation"] } ∧
    mapGet (processAccumulationQueue fixParseTransfer fixParseUpdate
      fixStateBoom 5).omega "digest-boom" = none ∧
    (processAccumulationQueue fixParseTransfer fixParseUpdate fixStateBoom
      5).globalState ≠ fixStateBoom.globalState := by
  decide

/-! ## C4 — the topological sort has no lexicographic tie-break -/

/-- C4 counterexample: `fixOmegaAB` and `fixOmegaBA` hold the same
entries (they are permutations of one another), yet `topologicalSort`
returns different sequences — the tie among in-degree-0 nodes is broken
by `Map` insertion order, not by lexicographic order of the digest hex
string. -/
theorem topologicalSort_insertion_order_counterexample :
    fixOmegaAB.Perm fixOmegaBA ∧
    topologicalSort fixOmegaAB ≠ topologicalSort fixOmegaBA := by
  constructor
  · decide
  · decide

/-- Folding a function that fixes every list element is the identity. -/
theorem foldl_fixed {α β : Type} (f : β → α → β) (l : List α)
    (h : ∀ b, ∀ x ∈ l, f b x = b) : ∀ b, l.foldl f b = b := by
  induction l with
  | nil => intro b; rfl
  | cons x rest ih =>
    intro b
    rw [List.foldl_cons, h b x (List.mem_cons_self x rest)]
    exact ih (fun b y hy => h b y (List.mem_cons_of_mem x hy)) b

/-- In a graph whose adjacency lists are all empty, the Kahn loop just
drains its pending queue in order. -/
theorem kahnLoop_no_edges (graph : List (String × List String))
    (hg : ∀ k, mapGet graph k = none ∨ mapGet graph k = some []) :
    ∀ (pending : List String) (fuel : Nat) (inDegree : List (String × Int))
      (sortedOrder : List String), pending.length ≤ fuel →
      kahnLoop fuel graph inDegree pending sortedOrder =
        sortedOrder ++ pending := by
  intro pending
  induction pending with
  | nil =>
    intro fuel inDegree sortedOrder _
    cases fuel <;> simp [kahnLoop]
  | cons currentDigest rest ih =>
    intro fuel inDegree sortedOrder hfuel
    cases fuel with
    | zero => simp at hfuel
    | succ fuel =>
      have hnb : (match mapGet graph currentDigest with
          | some ns => ns
          | none => []) = ([] : List String) := by
        rcases hg currentDigest with h | h <;> rw [h]
      rw [kahnLoop, hnb]
      simp only [List.foldl_nil, List.append_nil]
      rw [ih fuel inDegree (sortedOrder ++ [currentDigest])
        (by simpa using Nat.le_of_succ_le_succ hfuel)]
      simp

/-- Projecting out the keys of an all-zero in-degree table. -/
theorem filterMap_zero_degrees {α β : Type} (l : List (α × β)) :
    (l.map (fun p => (p.1, (0 : Int)))).filterMap
      (fun p => if p.2 = 0 then some p.1 else none) = l.map Prod.fst := by
  induction l with
  | nil => rfl
  | cons q rest ih => simp [ih]

/-- Lookup in a constant-valued association list. -/
theorem mapGet_map_const {α β γ : Type} [DecidableEq α] (l : List (α × β))
    (c : γ) (k : α) :
    mapGet (l.map (fun p => (p.1, c))) k = none ∨
    mapGet (l.map (fun p => (p.1, c))) k = some c := by
  induction l with
  | nil => left; rfl
  | cons q rest ih =>
    by_cases hk : k = q.1
    · right; simp [hk]
    · simpa [hk] using ih

/-- C4 (amended): the tie-break of `topologicalSort` is `Map` insertion
order, not lexicographic digest order — on a queue without intra-queue
dependencies the emitted sequence is exactly the keys of ω in insertion
order, so two ω maps holding the same entries in different insertion
orders may produce different sequences (see the counterexample). -/
theorem topologicalSort_no_deps_insertion_order
    (accumulationQueue : List (String × AccumulationEntry))
    (h : ∀ p ∈ accumulationQueue, ∀ dep ∈ p.2.report.dependencies,
      mapHas accumulationQueue dep = false) :
    topologicalSort accumulationQueue = accumulationQueue.map Prod.fst := by
  have hbuilt : accumulationQueue.foldl
      (fun (acc : List (String × List String) × List (String × Int)) p =>
        p.2.report.dependencies.foldl
          (fun (acc : List (String × List String) × List (String × Int)) depHash =>
            if mapHas accumulationQueue depHash then
              (mapSet acc.1 depHash
                (setAdd (match mapGet acc.1 depHash with
                         | some ns => ns
                         | none => []) p.1),
               mapSet acc.2 p.1
                 ((match mapGet acc.2 p.1 with
                   | some degree => degree
                   | none => 0) + 1))
            else acc)
          acc)
      (accumulationQueue.map (fun p => (p.1, [])),
       accumulationQueue.map (fun p => (p.1, 0))) =
      (accumulationQueue.map (fun p => (p.1, [])),
       accumulationQueue.map (fun p => (p.1, 0))) := by
    apply foldl_fixed
    intro acc p hp
    apply foldl_fixed
    intro acc' dep hdep
    rw [if_neg]
    rw [h p hp dep hdep]
    simp
  simp only [topologicalSort, hbuilt]
  rw [filterMap_zero_degrees]
  rw [kahnLoop_no_edges _ (mapGet_map_const accumulationQueue ([] : List String)) _ _ _ _ (by
    simp only [List.length_map]
    nlinarith [accumulationQueue.length])]
  simp

/-- Witness for the amended C4 theorem: `fixOmegaAB` has no intra-queue
dependencies, and the sort emits its keys in insertion order. -/
theorem topologicalSort_no_deps_insertion_order_witness :
    (∀ p ∈ fixOmegaAB, ∀ dep ∈ p.2.report.dependencies,
      mapHas fixOmegaAB dep = false) ∧
    topologicalSort fixOmegaAB = fixOmegaAB.map Prod.fst :=
  ⟨by decide, topologicalSort_no_deps_insertion_order fixOmegaAB (by decide)⟩

/-! ## Helper lemmas about the guarantee processor -/

/-- `chargeOffender` stamps the charged key. -/
theorem chargeOffender_get_self (psi_O : List (String × OffenderRecord))
    (publicKey : String) (currentSlot : Int) :
    mapGet (chargeOffender psi_O publicKey currentSlot) publicKey =
      some { disputeCount :=
               match mapGet psi_O publicKey with
               | some rec => rec.disputeCount + 1
               | none => 1
             lastDisputeSlot := currentSlot } := by
  unfold chargeOffender
  cases h : mapGet psi_O publicKey <;> simp [h, mapGet_mapSet_self]

/-- `chargeOffender` leaves every other key unchanged. -/
theorem chargeOffender_get_ne (psi_O : List (String × OffenderRecord))
    (publicKey k : String) (currentSlot : Int) (h : k ≠ publicKey) :
    mapGet (chargeOffender psi_O publicKey currentSlot) k = mapGet psi_O k := by
  unfold chargeOffender
  cases hc : mapGet psi_O publicKey <;> simp [hc, mapGet_mapSet_ne _ _ _ _ h]

/-- A validation failure routes to ψ_B and ψ_O and returns `false`,
leaving everything else untouched. -/
theorem processGuarantee_validation_failure_eq
    (verify : SignableReport → String → String → Bool)
    (hash : SignableReport → String) (report : WorkReport) (S : OnchainState)
    (currentSlot : Int) (currentBlockDigests : List WorkDigest) (msg : String)
    (hval : validateWorkReport verify hash report S currentSlot
      currentBlockDigests = some msg) :
    processGuaranteeExtrinsic verify hash report S currentSlot
      currentBlockDigests =
    (false,
      { S with
        psi_B := mapSet S.psi_B (generateWorkDigest hash report).hash
          { reason := msg, disputedBy := ["system_validation"] }
        psi_O := chargeOffender S.psi_O report.guarantorPublicKey currentSlot }) := by
  simp [processGuaranteeExtrinsic, hval]

/-- Case analysis of the promotion / timeout tail of the guarantee
processor. -/
theorem checkPromotionAndTimeout_spec (report : WorkReport) (S : OnchainState)
    (currentSlot : Int) (digestHash : String) (entry : PendingReportEntry) :
    let required := requiredSignatures
      (report.refinementContext.currentGuarantors.length +
       report.refinementContext.previousGuarantors.length)
    (entry.receivedSignatures.length ≥ required →
      checkPromotionAndTimeout report S currentSlot digestHash entry =
        (true,
          { S with
            rho := mapDelete S.rho digestHash
            omega := mapSet S.omega digestHash
              { report := report, status := ReportStatus.ready } })) ∧
    (entry.receivedSignatures.length < required →
      currentSlot - entry.submissionSlot > ONCHAIN_CONSTANTS.REPORT_TIMEOUT_SLOTS →
      checkPromotionAndTimeout report S currentSlot digestHash entry =
        (false,
          { S with
            rho := mapDelete S.rho digestHash
            psi_B := mapSet S.psi_B digestHash
              { reason := "timed_out", disputedBy := ["system_timeout"] } })) ∧
    (entry.receivedSignatures.length < required →
      ¬ currentSlot - entry.submissionSlot > ONCHAIN_CONSTANTS.REPORT_TIMEOUT_SLOTS →
      checkPromotionAndTimeout report S currentSlot digestHash entry = (true, S)) := by
  refine ⟨fun hge => ?_, fun hlt htime => ?_, fun hlt htime => ?_⟩
  · simp [checkPromotionAndTimeout, hge]
  · simp [checkPromotionAndTimeout, Nat.not_le.mpr hlt, htime]
  · simp [checkPromotionAndTimeout, Nat.not_le.mpr hlt, htime]

/-! ## C6 — routing of validation failures -/

/-- C6: whenever validation fails with some message, the processor
returns `false`, overwrites ψ_B at the report digest with that message
and the disputer set `{"system_validation"}`, charges ψ_O for the
guarantor (incrementing `disputeCount` and stamping `lastDisputeSlot`,
creating the record with count 1 if absent), and leaves ρ, ω and ξ
unchanged. -/
theorem validation_failure_routing
    (verify : SignableReport → String → String → Bool)
    (hash : SignableReport → String) (report : WorkReport) (S : OnchainState)
    (currentSlot : Int) (currentBlockDigests : List WorkDigest) (msg : String)
    (hval : validateWorkReport verify hash report S currentSlot
      currentBlockDigests = some msg) :
    (processGuaranteeExtrinsic verify hash report S currentSlot
      currentBlockDigests).1 = false ∧
    mapGet (processGuaranteeExtrinsic verify hash report S currentSlot
      currentBlockDigests).2.psi_B (generateWorkDigest hash report).hash =
      some { reason := msg, disputedBy := ["system_validation"] } ∧
    mapGet (processGuaranteeExtrinsic verify hash report S currentSlot
      currentBlockDigests).2.psi_O report.guarantorPublicKey =
      some { disputeCount :=
               match mapGet S.psi_O report.guarantorPublicKey with
               | some rec => rec.disputeCount + 1
               | none => 1
             lastDisputeSlot := currentSlot } ∧
    (processGuaranteeExtrinsic verify hash report S currentSlot
      currentBlockDigests).2.rho = S.rho ∧
    (processGuaranteeExtrinsic verify hash report S currentSlot
      currentBlockDigests).2.omega = S.omega ∧
    (processGuaranteeExtrinsic verify hash report S currentSlot
      currentBlockDigests).2.xi = S.xi := by
  rw [processGuarantee_validation_failure_eq verify hash report S currentSlot
    currentBlockDigests msg hval]
  refine ⟨rfl, ?_, ?_, rfl, rfl, rfl⟩
  · exact mapGet_mapSet_self _ _ _
  · exact chargeOffender_get_self _ _ _

/-- A report whose context anchor is far older than
`ANCHOR_MAX_AGE_SLOTS` relative to the processing slot. -/
def fixReportOldAnchor : WorkReport :=
  { fixReport1 with
    refinementContext := { fixCtx1 with anchorBlockNumber := 1 }
    pvmOutput := "digest-old-anchor" }

/-- Witness for C6 at a concrete failing report (stale anchor). -/
theorem validation_failure_routing_witness :
    validateWorkReport fixVerify fixHash fixReportOldAnchor initialOnchainState
      100 [] = some "anchor_not_recent: Context anchor block is too old." ∧
    ((processGuaranteeExtrinsic fixVerify fixHash fixReportOldAnchor
      initialOnchainState 100 []).1 = false ∧
     mapGet (processGuaranteeExtrinsic fixVerify fixHash fixReportOldAnchor
      initialOnchainState 100 []).2.psi_B
      (generateWorkDigest fixHash fixReportOldAnchor).hash =
      some { reason := "anchor_not_recent: Context anchor block is too old."
             disputedBy := ["system_validation"] } ∧
     mapGet (processGuaranteeExtrinsic fixVerify fixHash fixReportOldAnchor
      initialOnchainState 100 []).2.psi_O
      fixReportOldAnchor.guarantorPublicKey =
      some { disputeCount :=
               match mapGet initialOnchainState.psi_O
                 fixReportOldAnchor.guarantorPublicKey with
               | some rec => rec.disputeCount + 1
               | none => 1
             lastDisputeSlot := 100 } ∧
     (processGuaranteeExtrinsic fixVerify fixHash fixReportOldAnchor
      initialOnchainState 100 []).2.rho = initialOnchainState.rho ∧
     (processGuaranteeExtrinsic fixVerify fixHash fixReportOldAnchor
      initialOnchainState 100 []).2.omega = initialOnchainState.omega ∧
     (processGuaranteeExtrinsic fixVerify fixHash fixReportOldAnchor
      initialOnchainState 100 []).2.xi = initialOnchainState.xi) :=
  ⟨by decide,
   validation_failure_routing fixVerify fixHash fixReportOldAnchor
     initialOnchainState 100 [] _ (by decide)⟩

/-! ## C8 — idempotent endorsement -/

/-- C8: a second otherwise-valid Guarantee for a (digest, guarantor) pair
whose signature is already recorded in ρ is a strict no-op: the
processor returns `false` and the state — in particular the size of
`ρ[d].receivedSignatures` — is unchanged. -/
theorem idempotent_endorsement
    (verify : SignableReport → String → String → Bool)
    (hash : SignableReport → String) (report : WorkReport) (S : OnchainState)
    (currentSlot : Int) (currentBlockDigests : List WorkDigest)
    (entry : PendingReportEntry)
    (hval : validateWorkReport verify hash report S currentSlot
      currentBlockDigests = none)
    (hentry : mapGet S.rho (generateWorkDigest hash report).hash = some entry)
    (hdup : entry.receivedSignatures.contains report.guarantorPublicKey = true) :
    processGuaranteeExtrinsic verify hash report S currentSlot
      currentBlockDigests = (false, S) := by
  simp only [processGuaranteeExtrinsic, hval, hentry]
  rw [if_pos hdup]

/-- A pending state for `fixReport2` already endorsed by `g1`. -/
def fixStateRhoDup : OnchainState :=
  { initialOnchainState with
    rho := [("digest-two",
      { report := fixReport2, receivedSignatures := ["g1"],
        submissionSlot := 100 })] }

/-- Witness for C8: re-submitting `fixReport2` (guarantor `g1`) against
`fixStateRhoDup` is rejected without touching the state. -/
theorem idempotent_endorsement_witness :
    (validateWorkReport fixVerify fixHash fixReport2 fixStateRhoDup 100 [] =
      none ∧
     mapGet fixStateRhoDup.rho (generateWorkDigest fixHash fixReport2).hash =
      some { report := fixReport2, receivedSignatures := ["g1"],
             submissionSlot := 100 } ∧
     List.contains ["g1"] fixReport2.guarantorPublicKey = true) ∧
    processGuaranteeExtrinsic fixVerify fixHash fixReport2 fixStateRhoDup 100
      [] = (false, fixStateRhoDup) :=
  ⟨⟨by decide, by decide, by decide⟩,
   idempotent_endorsement fixVerify fixHash fixReport2 fixStateRhoDup 100 []
     { report := fixReport2, receivedSignatures := ["g1"], submissionSlot := 100 }
     (by decide) (by decide) (by decide)⟩

/-! ## C9 — the undocumented `bad_core_index` check -/

/-- C9: a report whose core index is negative or above
`MAX_CORE_INDEX = 1023` is rejected with the `bad_core_index` tag
(returning `false` and recording ψ_B accordingly) as soon as the
signature and anchor checks pass — in particular before the
guarantor-assignment check, which is never consulted (the witness uses a
guarantor absent from both rosters). -/
theorem bad_core_index_check
    (verify : SignableReport → String → String → Bool)
    (hash : SignableReport → String) (report : WorkReport) (S : OnchainState)
    (currentSlot : Int) (currentBlockDigests : List WorkDigest)
    (hsig : verify report.toSignableObject report.guarantorSignature
      report.guarantorPublicKey = true)
    (hanchor : currentSlot - report.refinementContext.anchorBlockNumber ≤
      ONCHAIN_CONSTANTS.ANCHOR_MAX_AGE_SLOTS)
    (hcore : report.coreIndex < 0 ∨
      report.coreIndex > ONCHAIN_CONSTANTS.MAX_CORE_INDEX) :
    validateWorkReport verify hash report S currentSlot currentBlockDigests =
      some "bad_core_index: Core index is out of bounds." ∧
    (processGuaranteeExtrinsic verify hash report S currentSlot
      currentBlockDigests).1 = false ∧
    mapGet (processGuaranteeExtrinsic verify hash report S currentSlot
      currentBlockDigests).2.psi_B (generateWorkDigest hash report).hash =
      some { reason := "bad_core_index: Core index is out of bounds."
             disputedBy := ["system_validation"] } := by
  have hv : validateWorkReport verify hash report S currentSlot
      currentBlockDigests = some "bad_core_index: Core index is out of bounds." := by
    unfold validateWorkReport
    rw [if_neg (by simp [hsig])]
    rw [if_neg (by omega)]
    rw [if_pos hcore]
  refine ⟨hv, ?_, ?_⟩
  · rw [processGuarantee_validation_failure_eq verify hash report S currentSlot
      currentBlockDigests _ hv]
  · rw [processGuarantee_validation_failure_eq verify hash report S currentSlot
      currentBlockDigests _ hv]
    exact mapGet_mapSet_self _ _ _

/-- A report with an out-of-range core index, guaranteed by a key that
appears in neither roster. -/
def fixReportBadCore : WorkReport :=
  { fixReport1 with
    coreIndex := 2000
    guarantorPublicKey := "outsider"
    pvmOutput := "digest-bad-core" }

/-- Witness for C9: `fixReportBadCore` is rejected as `bad_core_index`
even though its guarantor would also fail the (later) assignment
check. -/
theorem bad_core_index_check_witness :
    (fixVerify fixReportBadCore.toSignableObject
       fixReportBadCore.guarantorSignature
       fixReportBadCore.guarantorPublicKey = true ∧
     (100 : Int) - fixReportBadCore.refinementContext.anchorBlockNumber ≤
       ONCHAIN_CONSTANTS.ANCHOR_MAX_AGE_SLOTS ∧
     (fixReportBadCore.coreIndex < 0 ∨
       fixReportBadCore.coreIndex > ONCHAIN_CONSTANTS.MAX_CORE_INDEX) ∧
     List.contains fixReportBadCore.refinementContext.currentGuarantors
       fixReportBadCore.guarantorPublicKey = false ∧
     List.contains fixReportBadCore.refinementContext.previousGuarantors
       fixReportBadCore.guarantorPublicKey = false) ∧
    (validateWorkReport fixVerify fixHash fixReportBadCore initialOnchainState
      100 [] = some "bad_core_index: Core index is out of bounds." ∧
     (processGuaranteeExtrinsic fixVerify fixHash fixReportBadCore
       initialOnchainState 100 []).1 = false ∧
     mapGet (processGuaranteeExtrinsic fixVerify fixHash fixReportBadCore
       initialOnchainState 100 []).2.psi_B
       (generateWorkDigest fixHash fixReportBadCore).hash =
       some { reason := "bad_core_index: Core index is out of bounds."
              disputedBy := ["system_validation"] }) :=
  ⟨⟨by decide, by decide, by decide, by decide, by decide⟩,
   bad_core_index_check fixVerify fixHash fixReportBadCore initialOnchainState
     100 [] (by decide) (by decide) (by decide)⟩


/-! ## C5 — the promotion threshold -/

/-- The endorsement merge of `processGuaranteeExtrinsic` (lines 166-185):
the ρ entry for the digest after the incoming report's signature has
been merged — a fresh singleton entry stamped with the current slot, or
the existing entry with the new signature appended. -/
def mergedEntry (report : WorkReport) (S : OnchainState) (currentSlot : Int)
    (digestHash : String) : PendingReportEntry :=
  match mapGet S.rho digestHash with
  | none => PendingReportEntry.mk report [report.guarantorPublicKey] currentSlot
  | some e => PendingReportEntry.mk e.report
      (e.receivedSignatures ++ [report.guarantorPublicKey]) e.submissionSlot

/-- After a successful validation that contributes a new signature, the
processor is the promotion/timeout tail applied to the merged entry. -/
theorem processGuarantee_success_eq
    (verify : SignableReport → String → String → Bool)
    (hash : SignableReport → String) (report : WorkReport) (S : OnchainState)
    (currentSlot : Int) (currentBlockDigests : List WorkDigest)
    (hval : validateWorkReport verify hash report S currentSlot
      currentBlockDigests = none)
    (hnew : ((mapGet S.rho (generateWorkDigest hash report).hash).all
      (fun e => !(e.receivedSignatures.contains report.guarantorPublicKey))) =
      true) :
    processGuaranteeExtrinsic verify hash report S currentSlot
      currentBlockDigests =
    checkPromotionAndTimeout report
      { S with rho := (mapSet S.rho (generateWorkDigest hash report).hash
          (mergedEntry report S currentSlot (generateWorkDigest hash report).hash)) }
      currentSlot (generateWorkDigest hash report).hash
      (mergedEntry report S currentSlot (generateWorkDigest hash report).hash) := by
  cases hrho : mapGet S.rho (generateWorkDigest hash report).hash with
  | none =>
    simp only [processGuaranteeExtrinsic, hval, hrho, mergedEntry]
  | some e =>
    have hdup : e.receivedSignatures.contains report.guarantorPublicKey = false := by
      rw [hrho] at hnew
      simpa using hnew
    simp only [processGuaranteeExtrinsic, hval, hrho, mergedEntry]
    rw [if_neg (by rw [hdup]; simp)]

/-- C5: for a valid Guarantee that contributes a new signature for
digest `d`, the digest moves from ρ to ω (status `ready`, return value
`true`) exactly when the merged signature set reaches
`⌈(|currentGuarantors| + |previousGuarantors|) · 2 / 3⌉`; below the
threshold (and absent a timeout) `d` stays in ρ with the merged entry
and ω is untouched. -/
theorem promotion_threshold_iff
    (verify : SignableReport → String → String → Bool)
    (hash : SignableReport → String) (report : WorkReport) (S : OnchainState)
    (currentSlot : Int) (currentBlockDigests : List WorkDigest)
    (hval : validateWorkReport verify hash report S currentSlot
      currentBlockDigests = none)
    (hnew : ((mapGet S.rho (generateWorkDigest hash report).hash).all
      (fun e => !(e.receivedSignatures.contains report.guarantorPublicKey))) =
      true) :
    ((mergedEntry report S currentSlot
        (generateWorkDigest hash report).hash).receivedSignatures.length ≥
      requiredSignatures
        (report.refinementContext.currentGuarantors.length +
         report.refinementContext.previousGuarantors.length) →
      (processGuaranteeExtrinsic verify hash report S currentSlot
        currentBlockDigests).1 = true ∧
      mapGet (processGuaranteeExtrinsic verify hash report S currentSlot
        currentBlockDigests).2.omega (generateWorkDigest hash report).hash =
        some { report := report, status := ReportStatus.ready } ∧
      mapGet (processGuaranteeExtrinsic verify hash report S currentSlot
        currentBlockDigests).2.rho (generateWorkDigest hash report).hash =
        none) ∧
    ((mergedEntry report S currentSlot
        (generateWorkDigest hash report).hash).receivedSignatures.length <
      requiredSignatures
        (report.refinementContext.currentGuarantors.length +
         report.refinementContext.previousGuarantors.length) →
      ¬ currentSlot - (mergedEntry report S currentSlot
          (generateWorkDigest hash report).hash).submissionSlot >
        ONCHAIN_CONSTANTS.REPORT_TIMEOUT_SLOTS →
      mapGet (processGuaranteeExtrinsic verify hash report S currentSlot
        currentBlockDigests).2.rho (generateWorkDigest hash report).hash =
        some (mergedEntry report S currentSlot
          (generateWorkDigest hash report).hash) ∧
      (processGuaranteeExtrinsic verify hash report S currentSlot
        currentBlockDigests).2.omega = S.omega) := by
  have hres := processGuarantee_success_eq verify hash report S currentSlot
    currentBlockDigests hval hnew
  obtain ⟨hpro, htimeout, hstay⟩ := checkPromotionAndTimeout_spec report
    { S with rho := (mapSet S.rho (generateWorkDigest hash report).hash
        (mergedEntry report S currentSlot (generateWorkDigest hash report).hash)) }
    currentSlot (generateWorkDigest hash report).hash
    (mergedEntry report S currentSlot (generateWorkDigest hash report).hash)
  constructor
  · intro hge
    rw [hres, hpro hge]
    exact ⟨rfl, mapGet_mapSet_self _ _ _, mapGet_mapDelete_self _ _⟩
  · intro hlt htime
    rw [hres, hstay hlt htime]
    exact ⟨mapGet_mapSet_self _ _ _, rfl⟩

/-- Witness for C5: the first guarantee of `fixReport1` under the
single-guarantor context meets the threshold `⌈2/3⌉ = 1` at once and is
promoted to ω. -/
theorem promotion_threshold_iff_witness :
    (validateWorkReport fixVerify fixHash fixReport1 initialOnchainState 100 []
       = none ∧
     ((mapGet initialOnchainState.rho
        (generateWorkDigest fixHash fixReport1).hash).all
       (fun e => !(e.receivedSignatures.contains
          fixReport1.guarantorPublicKey))) = true ∧
     (mergedEntry fixReport1 initialOnchainState 100
        (generateWorkDigest fixHash fixReport1).hash).receivedSignatures.length ≥
       requiredSignatures
         (fixReport1.refinementContext.currentGuarantors.length +
          fixReport1.refinementContext.previousGuarantors.length)) ∧
    ((processGuaranteeExtrinsic fixVerify fixHash fixReport1
        initialOnchainState 100 []).1 = true ∧
     mapGet (processGuaranteeExtrinsic fixVerify fixHash fixReport1
        initialOnchainState 100 []).2.omega
        (generateWorkDigest fixHash fixReport1).hash =
        some { report := fixReport1, status := ReportStatus.ready } ∧
     mapGet (processGuaranteeExtrinsic fixVerify fixHash fixReport1
        initialOnchainState 100 []).2.rho
        (generateWorkDigest fixHash fixReport1).hash = none) :=
  ⟨⟨by decide, by decide, by decide⟩,
   (promotion_threshold_iff fixVerify fixHash fixReport1 initialOnchainState
      100 [] (by decide) (by decide)).1 (by decide)⟩

/-! ## C10 — timeout eviction leaves the offender ledger alone -/

/-- C10: when a valid Guarantee adds a new signature to a pending entry
that still misses the threshold and whose submission is older than
`REPORT_TIMEOUT_SLOTS`, the digest is evicted from ρ into ψ_B with
reason `timed_out` and disputer set `{"system_timeout"}`, the call
returns `false`, and ψ_O is left entirely unchanged. -/
theorem timeout_eviction_no_offender_charge
    (verify : SignableReport → String → String → Bool)
    (hash : SignableReport → String) (report : WorkReport) (S : OnchainState)
    (currentSlot : Int) (currentBlockDigests : List WorkDigest)
    (entry : PendingReportEntry)
    (hval : validateWorkReport verify hash report S currentSlot
      currentBlockDigests = none)
    (hentry : mapGet S.rho (generateWorkDigest hash report).hash = some entry)
    (hnotdup : entry.receivedSignatures.contains report.guarantorPublicKey =
      false)
    (hbelow : entry.receivedSignatures.length + 1 < requiredSignatures
      (report.refinementContext.currentGuarantors.length +
       report.refinementContext.previousGuarantors.length))
    (htime : currentSlot - entry.submissionSlot >
      ONCHAIN_CONSTANTS.REPORT_TIMEOUT_SLOTS) :
    (processGuaranteeExtrinsic verify hash report S currentSlot
      currentBlockDigests).1 = false ∧
    mapGet (processGuaranteeExtrinsic verify hash report S currentSlot
      currentBlockDigests).2.rho (generateWorkDigest hash report).hash =
      none ∧
    (∀ k, k ≠ (generateWorkDigest hash report).hash →
      mapGet (processGuaranteeExtrinsic verify hash report S currentSlot
        currentBlockDigests).2.rho k = mapGet S.rho k) ∧
    mapGet (processGuaranteeExtrinsic verify hash report S currentSlot
      currentBlockDigests).2.psi_B (generateWorkDigest hash report).hash =
      some { reason := "timed_out", disputedBy := ["system_timeout"] } ∧
    (processGuaranteeExtrinsic verify hash report S currentSlot
      currentBlockDigests).2.psi_O = S.psi_O := by
  have hnew : ((mapGet S.rho (generateWorkDigest hash report).hash).all
      (fun e => !(e.receivedSignatures.contains report.guarantorPublicKey))) =
      true := by
    rw [hentry]
    simpa using hnotdup
  have hres := processGuarantee_success_eq verify hash report S currentSlot
    currentBlockDigests hval hnew
  have hmerged : mergedEntry report S currentSlot
      (generateWorkDigest hash report).hash =
      PendingReportEntry.mk entry.report
        (entry.receivedSignatures ++ [report.guarantorPublicKey])
        entry.submissionSlot := by
    simp [mergedEntry, hentry]
  obtain ⟨hpro, htimeout, hstay⟩ := checkPromotionAndTimeout_spec report
    { S with rho := (mapSet S.rho (generateWorkDigest hash report).hash
        (mergedEntry report S currentSlot (generateWorkDigest hash report).hash)) }
    currentSlot (generateWorkDigest hash report).hash
    (mergedEntry report S currentSlot (generateWorkDigest hash report).hash)
  rw [hres, htimeout (by rw [hmerged]; simpa using hbelow)
    (by rw [hmerged]; exact htime)]
  refine ⟨rfl, mapGet_mapDelete_self _ _, ?_, mapGet_mapSet_self _ _ _, rfl⟩
  intro k hk
  rw [mapGet_mapDelete_ne _ _ _ hk, mapGet_mapSet_ne _ _ _ _ hk]

/-- A report under the four-guarantor context (threshold 3). -/
def fixReportFour : WorkReport :=
  { fixReport1 with
    refinementContext := fixCtx4
    pvmOutput := "digest-four" }

/-- A stale pending entry for `fixReportFour`: one foreign signature,
submitted at slot −10 (110 slots before the processing slot 100). -/
def fixStateStale : OnchainState :=
  { initialOnchainState with
    rho := [("digest-four",
      { report := fixReportFour, receivedSignatures := ["g9"],
        submissionSlot := -10 })] }

/-- Witness for C10: `g1`'s guarantee for the stale below-threshold
entry evicts it as timed out and leaves ψ_O empty. -/
theorem timeout_eviction_no_offender_charge_witness :
    (validateWorkReport fixVerify fixHash fixReportFour fixStateStale 100 [] =
       none ∧
     mapGet fixStateStale.rho (generateWorkDigest fixHash fixReportFour).hash =
       some { report := fixReportFour, receivedSignatures := ["g9"],
              submissionSlot := -10 } ∧
     (1 + 1 < requiredSignatures 4) ∧
     ((100 : Int) - (-10) > ONCHAIN_CONSTANTS.REPORT_TIMEOUT_SLOTS)) ∧
    ((processGuaranteeExtrinsic fixVerify fixHash fixReportFour fixStateStale
       100 []).1 = false ∧
     mapGet (processGuaranteeExtrinsic fixVerify fixHash fixReportFour
       fixStateStale 100 []).2.rho
       (generateWorkDigest fixHash fixReportFour).hash = none ∧
     (∀ k, k ≠ (generateWorkDigest fixHash fixReportFour).hash →
       mapGet (processGuaranteeExtrinsic fixVerify fixHash fixReportFour
         fixStateStale 100 []).2.rho k = mapGet fixStateStale.rho k) ∧
     mapGet (processGuaranteeExtrinsic fixVerify fixHash fixReportFour
       fixStateStale 100 []).2.psi_B
       (generateWorkDigest fixHash fixReportFour).hash =
       some { reason := "timed_out", disputedBy := ["system_timeout"] } ∧
     (processGuaranteeExtrinsic fixVerify fixHash fixReportFour fixStateStale
       100 []).2.psi_O = fixStateStale.psi_O) :=
  ⟨⟨by decide, by decide, by decide, by decide⟩,
   timeout_eviction_no_offender_charge fixVerify fixHash fixReportFour
     fixStateStale 100 []
     { report := fixReportFour, receivedSignatures := ["g9"],
       submissionSlot := -10 }
     (by decide) (by decide) (by decide) (by decide) (by decide)⟩

/-! ## C7 — history immutability -/

/-- The promotion/timeout tail never touches ξ. -/
theorem checkPromotionAndTimeout_xi (report : WorkReport) (S : OnchainState)
    (currentSlot : Int) (digestHash : String) (entry : PendingReportEntry) :
    (checkPromotionAndTimeout report S currentSlot digestHash entry).2.xi =
      S.xi := by
  simp only [checkPromotionAndTimeout]
  split_ifs <;> rfl

/-- The guarantee processor never touches ξ. -/
theorem processGuarantee_xi_eq (verify : SignableReport → String → String → Bool)
    (hash : SignableReport → String) (report : WorkReport) (S : OnchainState)
    (currentSlot : Int) (currentBlockDigests : List WorkDigest) :
    (processGuaranteeExtrinsic verify hash report S currentSlot
      currentBlockDigests).2.xi = S.xi := by
  simp only [processGuaranteeExtrinsic]
  split
  · rfl
  · split
    · exact checkPromotionAndTimeout_xi _ _ _ _ _
    · split
      · rfl
      · exact checkPromotionAndTimeout_xi _ _ _ _ _

/-- The dispute processor never touches ξ. -/
theorem processDispute_xi_eq (dispute : DisputeExtrinsic) (S : OnchainState)
    (currentSlot : Int) :
    (processDisputeExtrinsic dispute S currentSlot).xi = S.xi := by
  simp only [processDisputeExtrinsic]
  split_ifs with h
  · rfl
  · cases h1 : mapGet S.rho dispute.disputedDigestHash with
    | none =>
      cases h2 : mapGet S.omega dispute.disputedDigestHash with
      | none =>
        cases h3 : mapGet S.xi dispute.disputedDigestHash with
        | none => simp only [h1, h2, h3]
        | some r => simp only [h1, h2, h3]
      | some e2 => simp only [h1, h2]
    | some e1 =>
      cases h2 : mapGet S.omega dispute.disputedDigestHash with
      | none => simp only [h1, h2]
      | some e2 => simp only [h1, h2]

/-- One accumulation iteration can only add to ξ. -/
theorem accumulateDigest_xi_mono
    (parseTransfer : String → Option (String × String × Int))
    (parseUpdate : String → Option (String × String)) (currentSlot : Int)
    (S : OnchainState) (k d : String) (hd : mapHas S.xi d = true) :
    mapHas (accumulateDigest parseTransfer parseUpdate currentSlot S k).xi d =
      true := by
  simp only [accumulateDigest]
  split
  · exact hd
  · split
    · exact hd
    · split
      · by_cases hkd : d = k
        · subst hkd
          simp [mapHas, mapGet_mapSet_self]
        · simpa [mapHas, mapGet_mapSet_ne _ _ _ _ hkd] using hd
      · exact hd

/-- The accumulation sweep can only add to ξ. -/
theorem processAccumulationQueue_xi_mono
    (parseTransfer : String → Option (String × String × Int))
    (parseUpdate : String → Option (String × String)) (S : OnchainState)
    (currentSlot : Int) (d : String) (hd : mapHas S.xi d = true) :
    mapHas (processAccumulationQueue parseTransfer parseUpdate S
      currentSlot).xi d = true := by
  unfold processAccumulationQueue
  generalize topologicalSort S.omega = ds
  induction ds generalizing S with
  | nil => exact hd
  | cons k rest ih =>
    rw [List.foldl_cons]
    exact ih _ (accumulateDigest_xi_mono parseTransfer parseUpdate currentSlot
      S k d hd)

/-- C7: a digest in ξ is never removed by any of the four processors;
a Dispute naming it while it is absent from ρ and ω (a late dispute)
leaves `ξ[d]` intact, inserts or merges `ψ_B[d]` (adding the disputer
to `disputedBy`), and charges ψ_O for the finalized report's
guarantor. -/
theorem history_immutability
    (verify : SignableReport → String → String → Bool)
    (hash : SignableReport → String) (S : OnchainState) (d : String)
    (r : WorkReport) (reportG : WorkReport) (slotG : Int)
    (currentBlockDigests : List WorkDigest) (assurance : AssuranceData)
    (slotA : Int) (parseTransfer : String → Option (String × String × Int))
    (parseUpdate : String → Option (String × String)) (slotQ : Int)
    (dispute : DisputeExtrinsic) (slotD : Int)
    (hxi : mapGet S.xi d = some r) :
    mapHas (processGuaranteeExtrinsic verify hash reportG S slotG
      currentBlockDigests).2.xi d = true ∧
    mapHas (processAssuranceExtrinsic assurance S slotA).xi d = true ∧
    mapHas (processAccumulationQueue parseTransfer parseUpdate S slotQ).xi d =
      true ∧
    mapGet (processDisputeExtrinsic dispute S slotD).xi d = some r ∧
    (dispute.disputedDigestHash = d → mapGet S.rho d = none →
      mapGet S.omega d = none →
      mapGet (processDisputeExtrinsic dispute S slotD).psi_B d =
        some (match mapGet S.psi_B d with
              | some existing =>
                { existing with
                  disputedBy := setAdd existing.disputedBy
                    dispute.disputerPublicKey }
              | none =>
                { reason := dispute.reason
                  disputedBy := [dispute.disputerPublicKey] }) ∧
      mapGet (processDisputeExtrinsic dispute S slotD).psi_O
        r.guarantorPublicKey =
        some { disputeCount :=
                 match mapGet S.psi_O r.guarantorPublicKey with
                 | some rec => rec.disputeCount + 1
                 | none => 1
               lastDisputeSlot := slotD }) := by
  refine ⟨?_, ?_, ?_, ?_, ?_⟩
  · rw [processGuarantee_xi_eq]
    simp [mapHas, hxi]
  · simp [processAssuranceExtrinsic, mapHas, hxi]
  · exact processAccumulationQueue_xi_mono parseTransfer parseUpdate S slotQ d
      (by simp [mapHas, hxi])
  · rw [processDispute_xi_eq]
    exact hxi
  · intro hdd hrho homega
    subst hdd
    have hget : getReportByDigest S dispute.disputedDigestHash = some r := by
      simp [getReportByDigest, hxi]
    simp only [processDisputeExtrinsic, hget, hrho, homega, hxi,
      Option.isNone_some, Bool.false_eq_true, if_false]
    cases hpb : mapGet S.psi_B dispute.disputedDigestHash <;>
      simp only [hpb] <;>
      exact ⟨mapGet_mapSet_self _ _ _, chargeOffender_get_self _ _ _⟩

/-- A finalized state for the late-dispute witness. -/
def fixStateXi : OnchainState :=
  { initialOnchainState with xi := [("digest-one", fixReport1)] }

/-- A late dispute naming the finalized digest. -/
def fixDispute : DisputeExtrinsic :=
  { disputedDigestHash := "digest-one"
    disputerPublicKey := "p2"
    reason := "bad_output" }

/-- An assurance payload for the witness. -/
def fixAssurance : AssuranceData :=
  { reportHash := "digest-one"
    affirmingParty := "p3"
    targetDisputeHash := none
    reason := none }

/-- Witness for C7 at the finalized digest of `fixStateXi`. -/
theorem history_immutability_witness :
    mapGet fixStateXi.xi "digest-one" = some fixReport1 ∧
    (mapHas (processGuaranteeExtrinsic fixVerify fixHash fixReport2 fixStateXi
       100 []).2.xi "digest-one" = true ∧
     mapHas (processAssuranceExtrinsic fixAssurance fixStateXi 101).xi
       "digest-one" = true ∧
     mapHas (processAccumulationQueue fixParseTransfer fixParseUpdate
       fixStateXi 102).xi "digest-one" = true ∧
     mapGet (processDisputeExtrinsic fixDispute fixStateXi 103).xi
       "digest-one" = some fixReport1 ∧
     (fixDispute.disputedDigestHash = "digest-one" →
       mapGet fixStateXi.rho "digest-one" = none →
       mapGet fixStateXi.omega "digest-one" = none →
       mapGet (processDisputeExtrinsic fixDispute fixStateXi 103).psi_B
         "digest-one" =
         some (match mapGet fixStateXi.psi_B "digest-one" with
               | some existing =>
                 { existing with
                   disputedBy := setAdd existing.disputedBy
                     fixDispute.disputerPublicKey }
               | none =>
                 { reason := fixDispute.reason
                   disputedBy := [fixDispute.disputerPublicKey] }) ∧
       mapGet (processDisputeExtrinsic fixDispute fixStateXi 103).psi_O
         fixReport1.guarantorPublicKey =
         some { disputeCount :=
                  match mapGet fixStateXi.psi_O fixReport1.guarantorPublicKey with
                  | some rec => rec.disputeCount + 1
                  | none => 1
                lastDisputeSlot := 103 })) :=
  ⟨by decide,
   history_immutability fixVerify fixHash fixStateXi "digest-one" fixReport1
     fixReport2 100 [] fixAssurance 101 fixParseTransfer
     fixParseUpdate 102 fixDispute 103 (by decide)⟩

/-! ## C1 — bucket disjointness over all reachable states

The reachable states are those obtained from the fresh `OnchainState` by
any sequence of the four processors.  SHA-256 enters as the abstract
`hash` parameter; the only property of it the invariant needs is that
the digests of the reports actually guaranteed in the sequence are
collision-free (`HashInjOn`), which is how the collision-resistance of
the real SHA-256 is reflected in the embedding. -/

/-- One extrinsic of a run: the argument vectors of the four
processors. -/
inductive Extrinsic where
  | guarantee (report : WorkReport) (currentSlot : Int)
      (currentBlockDigests : List WorkDigest)
  | dispute (payload : DisputeExtrinsic) (currentSlot : Int)
  | assurance (payload : AssuranceData) (currentSlot : Int)
  | accumulate (parseTransfer : String → Option (String × String × Int))
      (parseUpdate : String → Option (String × String)) (currentSlot : Int)

/-- Apply one extrinsic to the state. -/
def applyExtrinsic (verify : SignableReport → String → String → Bool)
    (hash : SignableReport → String) (S : OnchainState) :
    Extrinsic → OnchainState
  | Extrinsic.guarantee report currentSlot currentBlockDigests =>
    (processGuaranteeExtrinsic verify hash report S currentSlot
      currentBlockDigests).2
  | Extrinsic.dispute payload currentSlot =>
    processDisputeExtrinsic payload S currentSlot
  | Extrinsic.assurance payload currentSlot =>
    processAssuranceExtrinsic payload S currentSlot
  | Extrinsic.accumulate parseTransfer parseUpdate currentSlot =>
    processAccumulationQueue parseTransfer parseUpdate S currentSlot

/-- Run a sequence of extrinsics. -/
def runExtrinsics (verify : SignableReport → String → String → Bool)
    (hash : SignableReport → String) (extrinsics : List Extrinsic)
    (S : OnchainState) : OnchainState :=
  extrinsics.foldl (applyExtrinsic verify hash) S

/-- The reports submitted through Guarantee extrinsics of a run. -/
def guaranteeReports : List Extrinsic → List WorkReport
  | [] => []
  | Extrinsic.guarantee report _ _ :: rest => report :: guaranteeReports rest
  | _ :: rest => guaranteeReports rest

/-- Digest collision-freedom on a set of reports: equal digests force
equal signable content (true of SHA-256 on any actually occurring
reports). -/
def HashInjOn (hash : SignableReport → String) (reports : List WorkReport) :
    Prop :=
  ∀ r₁ ∈ reports, ∀ r₂ ∈ reports,
    hash r₁.toSignableObject = hash r₂.toSignableObject →
    r₁.toSignableObject = r₂.toSignableObject

instance (hash : SignableReport → String) (reports : List WorkReport) :
    Decidable (HashInjOn hash reports) := by
  unfold HashInjOn
  infer_instance

/-- The inductive invariant behind bucket disjointness: the buckets are
pairwise disjoint, every ρ entry holds exactly its own report's
signature and hashes to its key, and every ω entry hashes to its key
and was promoted under a threshold of at most one (a digest can only
ever collect its own guarantor's signature, since the guarantor key is
part of the signable content). -/
structure CoreInv (hash : SignableReport → String) (reports : List WorkReport)
    (S : OnchainState) : Prop where
  disjRhoOmega : ∀ d, mapHas S.rho d = true → mapHas S.omega d = true → False
  disjRhoXi : ∀ d, mapHas S.rho d = true → mapHas S.xi d = true → False
  disjOmegaXi : ∀ d, mapHas S.omega d = true → mapHas S.xi d = true → False
  rhoInv : ∀ d e, mapGet S.rho d = some e →
    hash e.report.toSignableObject = d ∧
    e.receivedSignatures = [e.report.guarantorPublicKey] ∧
    e.report ∈ reports
  omegaInv : ∀ d e, mapGet S.omega d = some e →
    hash e.report.toSignableObject = d ∧
    requiredSignatures (e.report.refinementContext.currentGuarantors.length +
      e.report.refinementContext.previousGuarantors.length) ≤ 1 ∧
    e.report ∈ reports

/-- The fresh state satisfies the invariant. -/
theorem coreInv_initial (hash : SignableReport → String)
    (reports : List WorkReport) : CoreInv hash reports initialOnchainState := by
  constructor <;> intro d <;> simp [initialOnchainState, mapHas]

/-- The invariant only reads ρ, ω and ξ. -/
theorem coreInv_of_buckets_eq (hash : SignableReport → String)
    (reports : List WorkReport) (S S' : OnchainState)
    (hrho : S'.rho = S.rho) (homega : S'.omega = S.omega) (hxi : S'.xi = S.xi)
    (hinv : CoreInv hash reports S) : CoreInv hash reports S' := by
  constructor
  · intro d h1 h2; exact hinv.disjRhoOmega d (hrho ▸ h1) (homega ▸ h2)
  · intro d h1 h2; exact hinv.disjRhoXi d (hrho ▸ h1) (hxi ▸ h2)
  · intro d h1 h2; exact hinv.disjOmegaXi d (homega ▸ h1) (hxi ▸ h2)
  · intro d e he; exact hinv.rhoInv d e (hrho ▸ he)
  · intro d e he; exact hinv.omegaInv d e (homega ▸ he)

/-- The invariant is preserved when ρ and ω only shrink pointwise and ξ
is unchanged. -/
theorem coreInv_mono (hash : SignableReport → String)
    (reports : List WorkReport) (S S' : OnchainState)
    (hrho : ∀ d e, mapGet S'.rho d = some e → mapGet S.rho d = some e)
    (homega : ∀ d e, mapGet S'.omega d = some e → mapGet S.omega d = some e)
    (hxi : S'.xi = S.xi) (hinv : CoreInv hash reports S) :
    CoreInv hash reports S' := by
  have hasRho : ∀ d, mapHas S'.rho d = true → mapHas S.rho d = true := by
    intro d h
    obtain ⟨e, he⟩ := (mapHas_iff_get _ _).mp h
    exact (mapHas_iff_get _ _).mpr ⟨e, hrho d e he⟩
  have hasOmega : ∀ d, mapHas S'.omega d = true → mapHas S.omega d = true := by
    intro d h
    obtain ⟨e, he⟩ := (mapHas_iff_get _ _).mp h
    exact (mapHas_iff_get _ _).mpr ⟨e, homega d e he⟩
  constructor
  · intro d h1 h2; exact hinv.disjRhoOmega d (hasRho d h1) (hasOmega d h2)
  · intro d h1 h2; exact hinv.disjRhoXi d (hasRho d h1) (hxi ▸ h2)
  · intro d h1 h2; exact hinv.disjOmegaXi d (hasOmega d h1) (hxi ▸ h2)
  · intro d e he; exact hinv.rhoInv d e (hrho d e he)
  · intro d e he; exact hinv.omegaInv d e (homega d e he)

/-- A report that survives validation is not already finalized: the
`duplicate_package_in_recent_history` check is the last one. -/
theorem validate_none_not_in_xi
    (verify : SignableReport → String → String → Bool)
    (hash : SignableReport → String) (report : WorkReport) (S : OnchainState)
    (currentSlot : Int) (currentBlockDigests : List WorkDigest)
    (hval : validateWorkReport verify hash report S currentSlot
      currentBlockDigests = none) :
    mapHas S.xi (generateWorkDigest hash report).hash = false := by
  unfold validateWorkReport at hval
  by_cases c1 : ¬ verify report.toSignableObject report.guarantorSignature
      report.guarantorPublicKey = true
  · rw [if_pos c1] at hval; cases hval
  rw [if_neg c1] at hval
  by_cases c2 : currentSlot - report.refinementContext.anchorBlockNumber >
      ONCHAIN_CONSTANTS.ANCHOR_MAX_AGE_SLOTS
  · rw [if_pos c2] at hval; cases hval
  rw [if_neg c2] at hval
  by_cases c3 : report.coreIndex < 0 ∨
      report.coreIndex > ONCHAIN_CONSTANTS.MAX_CORE_INDEX
  · rw [if_pos c3] at hval; cases hval
  rw [if_neg c3] at hval
  by_cases c4 : ¬ ((Int.fdiv report.slot ONCHAIN_CONSTANTS.REPORT_TIMEOUT_SLOTS =
        report.refinementContext.currentEpoch ∧
      report.refinementContext.currentGuarantors.contains
        report.guarantorPublicKey) ∨
     (Int.fdiv report.slot ONCHAIN_CONSTANTS.REPORT_TIMEOUT_SLOTS =
        report.refinementContext.currentEpoch - 1 ∧
      report.refinementContext.previousGuarantors.contains
        report.guarantorPublicKey))
  · rw [if_pos c4] at hval; cases hval
  rw [if_neg c4] at hval
  by_cases c5 : mapGet S.globalState.coreStatus report.coreIndex = some "engaged"
  · rw [if_pos c5] at hval; cases hval
  rw [if_neg c5] at hval
  by_cases c6 : report.slot > currentSlot
  · rw [if_pos c6] at hval; cases hval
  rw [if_neg c6] at hval
  by_cases c7 : currentSlot - report.slot > ONCHAIN_CONSTANTS.REPORT_TIMEOUT_SLOTS
  · rw [if_pos c7] at hval; cases hval
  rw [if_neg c7] at hval
  by_cases c8 : (report.dependencies.length : Int) > ONCHAIN_CONSTANTS.MAX_DEPENDENCIES
  · rw [if_pos c8] at hval; cases hval
  rw [if_neg c8] at hval
  cases hf : report.dependencies.find? (fun depHash =>
      ¬ (mapHas S.xi depHash ∨ mapHas S.rho depHash ∨
         currentBlockDigests.any (fun d => d.hash = depHash))) with
  | some dep => rw [hf] at hval; cases hval
  | none =>
    rw [hf] at hval
    by_cases c9 : report.gasUsed > ONCHAIN_CONSTANTS.MAX_WORK_REPORT_GAS
    · rw [if_pos c9] at hval; cases hval
    rw [if_neg c9] at hval
    by_cases c10 : report.workPackage.workItems.any
        (fun item => item.gasLimit < ONCHAIN_CONSTANTS.MIN_SERVICE_ITEM_GAS)
    · rw [if_pos c10] at hval; cases hval
    rw [if_neg c10] at hval
    by_cases c11 : mapHas S.xi (generateWorkDigest hash report).hash = true
    · rw [if_pos c11] at hval; cases hval
    rw [if_neg c11] at hval
    simpa using c11

/-- The dispute processor leaves ρ alone or deletes the disputed key. -/
theorem processDispute_rho_cases (dispute : DisputeExtrinsic)
    (S : OnchainState) (currentSlot : Int) :
    (processDisputeExtrinsic dispute S currentSlot).rho = S.rho ∨
    (processDisputeExtrinsic dispute S currentSlot).rho =
      mapDelete S.rho dispute.disputedDigestHash := by
  simp only [processDisputeExtrinsic]
  split_ifs with h
  · left; rfl
  · cases h1 : mapGet S.rho dispute.disputedDigestHash with
    | none =>
      cases h2 : mapGet S.omega dispute.disputedDigestHash with
      | none =>
        cases h3 : mapGet S.xi dispute.disputedDigestHash with
        | none => simp [h1, h2, h3]
        | some r => simp [h1, h2, h3]
      | some e2 => simp [h1, h2]
    | some e1 =>
      cases h2 : mapGet S.omega dispute.disputedDigestHash with
      | none => simp [h1, h2]
      | some e2 => simp [h1, h2]

/-- The dispute processor leaves ω alone or deletes the disputed key. -/
theorem processDispute_omega_cases (dispute : DisputeExtrinsic)
    (S : OnchainState) (currentSlot : Int) :
    (processDisputeExtrinsic dispute S currentSlot).omega = S.omega ∨
    (processDisputeExtrinsic dispute S currentSlot).omega =
      mapDelete S.omega dispute.disputedDigestHash := by
  simp only [processDisputeExtrinsic]
  split_ifs with h
  · left; rfl
  · cases h1 : mapGet S.rho dispute.disputedDigestHash with
    | none =>
      cases h2 : mapGet S.omega dispute.disputedDigestHash with
      | none =>
        cases h3 : mapGet S.xi dispute.disputedDigestHash with
        | none => simp [h1, h2, h3]
        | some r => simp [h1, h2, h3]
      | some e2 => simp [h1, h2]
    | some e1 =>
      cases h2 : mapGet S.omega dispute.disputedDigestHash with
      | none => simp [h1, h2]
      | some e2 => simp [h1, h2]

/-- Pointwise: a surviving binding of a possibly-deleted map was already
there. -/
theorem mapGet_of_delete_cases {κ α : Type} [DecidableEq κ]
    (m m' : List (κ × α)) (k0 : κ) (hcases : m' = m ∨ m' = mapDelete m k0)
    (d : κ) (e : α) (he : mapGet m' d = some e) : mapGet m d = some e := by
  rcases hcases with h | h
  · rwa [h] at he
  · subst h
    by_cases hk : d = k0
    · rw [hk, mapGet_mapDelete_self] at he; cases he
    · rwa [mapGet_mapDelete_ne _ _ _ hk] at he

/-- Dispute preserves the invariant. -/
theorem dispute_preserves_inv (hash : SignableReport → String)
    (reports : List WorkReport) (dispute : DisputeExtrinsic)
    (S : OnchainState) (currentSlot : Int)
    (hinv : CoreInv hash reports S) :
    CoreInv hash reports (processDisputeExtrinsic dispute S currentSlot) := by
  refine coreInv_mono hash reports S _ ?_ ?_
    (processDispute_xi_eq dispute S currentSlot) hinv
  · intro d e he
    exact mapGet_of_delete_cases S.rho _ dispute.disputedDigestHash
      (processDispute_rho_cases dispute S currentSlot) d e he
  · intro d e he
    exact mapGet_of_delete_cases S.omega _ dispute.disputedDigestHash
      (processDispute_omega_cases dispute S currentSlot) d e he

theorem mapHas_mapSet_iff {κ α : Type} [DecidableEq κ]
    (m : List (κ × α)) (k k' : κ) (v : α) :
    mapHas (mapSet m k v) k' = true ↔ (k' = k ∨ mapHas m k' = true) := by
  by_cases h : k' = k
  · subst h
    simp [mapHas, mapGet_mapSet_self]
  · simp [mapHas, mapGet_mapSet_ne _ _ _ _ h, h]

theorem mapHas_mapDelete_iff {κ α : Type} [DecidableEq κ]
    (m : List (κ × α)) (k k' : κ) :
    mapHas (mapDelete m k) k' = true ↔ (k' ≠ k ∧ mapHas m k' = true) := by
  by_cases h : k' = k
  · subst h
    simp [mapHas, mapGet_mapDelete_self]
  · simp [mapHas, mapGet_mapDelete_ne _ _ _ h, h]

/-- Setting an ω entry's status to `processing` preserves the invariant. -/
theorem coreInv_omega_set_processing (hash : SignableReport → String)
    (reports : List WorkReport) (S : OnchainState) (k : String)
    (entry : AccumulationEntry) (hk : mapGet S.omega k = some entry)
    (hinv : CoreInv hash reports S) :
    CoreInv hash reports
      { S with omega := (mapSet S.omega k
          { report := entry.report, status := ReportStatus.processing }) } := by
  have hkHas : mapHas S.omega k = true := by simp [mapHas, hk]
  constructor
  · intro d h1 h2
    rcases (mapHas_mapSet_iff _ _ _ _).mp h2 with hdk | h2'
    · exact hinv.disjRhoOmega d h1 (hdk ▸ hkHas)
    · exact hinv.disjRhoOmega d h1 h2'
  · intro d h1 h2
    exact hinv.disjRhoXi d h1 h2
  · intro d h1 h2
    rcases (mapHas_mapSet_iff _ _ _ _).mp h1 with hdk | h1'
    · exact hinv.disjOmegaXi d (hdk ▸ hkHas) h2
    · exact hinv.disjOmegaXi d h1' h2
  · intro d e he
    exact hinv.rhoInv d e he
  · intro d e he
    by_cases hdk : d = k
    · subst hdk
      rw [mapGet_mapSet_self] at he
      cases he
      obtain ⟨ha, hb, hc⟩ := hinv.omegaInv d entry hk
      exact ⟨ha, hb, hc⟩
    · rw [mapGet_mapSet_ne _ _ _ _ hdk] at he
      exact hinv.omegaInv d e he

/-- Moving an ω entry to ξ preserves the invariant. -/
theorem coreInv_accum_success (hash : SignableReport → String)
    (reports : List WorkReport) (S : OnchainState) (k : String)
    (r : WorkReport) (g : GlobalState)
    (hk : mapHas S.omega k = true) (hinv : CoreInv hash reports S) :
    CoreInv hash reports
      { S with
        globalState := g
        omega := mapDelete S.omega k
        xi := mapSet S.xi k r } := by
  constructor
  · intro d h1 h2
    obtain ⟨hne, h2'⟩ := (mapHas_mapDelete_iff _ _ _).mp h2
    exact hinv.disjRhoOmega d h1 h2'
  · intro d h1 h2
    rcases (mapHas_mapSet_iff _ _ _ _).mp h2 with hdk | h2'
    · exact hinv.disjRhoOmega d h1 (hdk ▸ hk)
    · exact hinv.disjRhoXi d h1 h2'
  · intro d h1 h2
    obtain ⟨hne, h1'⟩ := (mapHas_mapDelete_iff _ _ _).mp h1
    rcases (mapHas_mapSet_iff _ _ _ _).mp h2 with hdk | h2'
    · exact absurd hdk hne
    · exact hinv.disjOmegaXi d h1' h2'
  · intro d e he
    exact hinv.rhoInv d e he
  · intro d e he
    by_cases hdk : d = k
    · subst hdk
      rw [mapGet_mapDelete_self] at he
      cases he
    · rw [mapGet_mapDelete_ne _ _ _ hdk] at he
      exact hinv.omegaInv d e he

/-- One accumulation iteration preserves the invariant. -/
theorem accumulateDigest_preserves_inv (hash : SignableReport → String)
    (reports : List WorkReport)
    (parseTransfer : String → Option (String × String × Int))
    (parseUpdate : String → Option (String × String)) (currentSlot : Int)
    (S : OnchainState) (k : String) (hinv : CoreInv hash reports S) :
    CoreInv hash reports
      (accumulateDigest parseTransfer parseUpdate currentSlot S k) := by
  simp only [accumulateDigest]
  split
  · exact hinv
  case h_2 entry heq =>
    split_ifs with hstatus
    · exact hinv
    · have hinv1 := coreInv_omega_set_processing hash reports S k entry heq hinv
      have hkHas1 : mapHas (mapSet S.omega k
          { report := entry.report, status := ReportStatus.processing }) k =
          true := by
        simp [mapHas, mapGet_mapSet_self]
      split
      · exact coreInv_accum_success hash reports _ k entry.report _ hkHas1 hinv1
      · refine coreInv_mono hash reports
          { S with omega := (mapSet S.omega k
              { report := entry.report, status := ReportStatus.processing }) }
          _ ?_ ?_ rfl hinv1
        · intro d e he
          exact he
        · intro d e he
          exact mapGet_of_delete_cases
            (mapSet S.omega k
              { report := entry.report, status := ReportStatus.processing })
            _ k (Or.inr rfl) d e he

/-- The accumulation sweep preserves the invariant. -/
theorem processAccumulationQueue_preserves_inv (hash : SignableReport → String)
    (reports : List WorkReport)
    (parseTransfer : String → Option (String × String × Int))
    (parseUpdate : String → Option (String × String)) (S : OnchainState)
    (currentSlot : Int) (hinv : CoreInv hash reports S) :
    CoreInv hash reports
      (processAccumulationQueue parseTransfer parseUpdate S currentSlot) := by
  unfold processAccumulationQueue
  generalize topologicalSort S.omega = ds
  induction ds generalizing S with
  | nil => exact hinv
  | cons k rest ih =>
    rw [List.foldl_cons]
    exact ih _ (accumulateDigest_preserves_inv hash reports parseTransfer
      parseUpdate currentSlot S k hinv)

/-- The guarantee processor preserves the invariant, provided the
incoming report is among the trace's reports and their digests are
collision-free.  The two interesting cases: a digest already pending can
only receive its own guarantor's signature again (rejected as a
duplicate), and a digest already in ω must have been promoted under a
threshold of at most 1, so a re-created ρ entry is promoted (and the ρ
copy deleted) in the same call. -/
theorem guarantee_preserves_inv
    (verify : SignableReport → String → String → Bool)
    (hash : SignableReport → String) (reports : List WorkReport)
    (report : WorkReport) (S : OnchainState) (currentSlot : Int)
    (currentBlockDigests : List WorkDigest) (hinj : HashInjOn hash reports)
    (hmem : report ∈ reports) (hinv : CoreInv hash reports S) :
    CoreInv hash reports
      (processGuaranteeExtrinsic verify hash report S currentSlot
        currentBlockDigests).2 := by
  cases hval : validateWorkReport verify hash report S currentSlot
      currentBlockDigests with
  | some msg =>
    rw [processGuarantee_validation_failure_eq verify hash report S currentSlot
      currentBlockDigests msg hval]
    exact coreInv_of_buckets_eq hash reports S _ rfl rfl rfl hinv
  | none =>
    have hxiF : mapHas S.xi (generateWorkDigest hash report).hash = false :=
      validate_none_not_in_xi verify hash report S currentSlot
        currentBlockDigests hval
    cases hrho : mapGet S.rho (generateWorkDigest hash report).hash with
    | some e =>
      obtain ⟨hhash, hsigs, hmem2⟩ :=
        hinv.rhoInv (generateWorkDigest hash report).hash e hrho
      have hsig : report.toSignableObject = e.report.toSignableObject :=
        hinj report hmem e.report hmem2 hhash.symm
      have hpk : report.guarantorPublicKey = e.report.guarantorPublicKey :=
        congrArg SignableReport.guarantorPublicKey hsig
      have hcontains :
          e.receivedSignatures.contains report.guarantorPublicKey = true := by
        rw [hsigs, hpk]
        simp
      have hid : processGuaranteeExtrinsic verify hash report S currentSlot
          currentBlockDigests = (false, S) := by
        simp only [processGuaranteeExtrinsic, hval, hrho]
        rw [if_pos hcontains]
      rw [hid]
      exact hinv
    | none =>
      have hnew : ((mapGet S.rho (generateWorkDigest hash report).hash).all
          (fun e => !(e.receivedSignatures.contains
            report.guarantorPublicKey))) = true := by
        rw [hrho]
        rfl
      have hres := processGuarantee_success_eq verify hash report S currentSlot
        currentBlockDigests hval hnew
      have hmergedEq : mergedEntry report S currentSlot
          (generateWorkDigest hash report).hash =
          PendingReportEntry.mk report [report.guarantorPublicKey]
            currentSlot := by
        simp [mergedEntry, hrho]
      rw [hres, hmergedEq]
      obtain ⟨hpro, htimeout, hstay⟩ := checkPromotionAndTimeout_spec report
        { S with rho := (mapSet S.rho (generateWorkDigest hash report).hash
            (PendingReportEntry.mk report [report.guarantorPublicKey]
              currentSlot)) }
        currentSlot (generateWorkDigest hash report).hash
        (PendingReportEntry.mk report [report.guarantorPublicKey] currentSlot)
      by_cases hge :
          (PendingReportEntry.mk report [report.guarantorPublicKey]
            currentSlot).receivedSignatures.length ≥
          requiredSignatures
            (report.refinementContext.currentGuarantors.length +
             report.refinementContext.previousGuarantors.length)
      · -- promotion: delete from ρ, insert into ω with a threshold ≤ 1
        rw [hpro hge]
        constructor
        · intro d h1 h2
          obtain ⟨hne, h1'⟩ := (mapHas_mapDelete_iff _ _ _).mp h1
          rcases (mapHas_mapSet_iff _ _ _ _).mp h1' with hdk | h1''
          · exact hne hdk
          · rcases (mapHas_mapSet_iff _ _ _ _).mp h2 with hdk | h2'
            · exact hne hdk
            · exact hinv.disjRhoOmega d h1'' h2'
        · intro d h1 h2
          obtain ⟨hne, h1'⟩ := (mapHas_mapDelete_iff _ _ _).mp h1
          rcases (mapHas_mapSet_iff _ _ _ _).mp h1' with hdk | h1''
          · exact hne hdk
          · exact hinv.disjRhoXi d h1'' h2
        · intro d h1 h2
          rcases (mapHas_mapSet_iff _ _ _ _).mp h1 with hdk | h1'
          · subst hdk
            rw [hxiF] at h2
            cases h2
          · exact hinv.disjOmegaXi d h1' h2
        · intro d e' he'
          by_cases hdk : d = (generateWorkDigest hash report).hash
          · subst hdk
            rw [mapGet_mapDelete_self] at he'
            cases he'
          · rw [mapGet_mapDelete_ne _ _ _ hdk,
              mapGet_mapSet_ne _ _ _ _ hdk] at he'
            exact hinv.rhoInv d e' he'
        · intro d e' he'
          by_cases hdk : d = (generateWorkDigest hash report).hash
          · subst hdk
            rw [mapGet_mapSet_self] at he'
            cases he'
            exact ⟨rfl, hge, hmem⟩
          · rw [mapGet_mapSet_ne _ _ _ _ hdk] at he'
            exact hinv.omegaInv d e' he'
      · -- below threshold: the entry stays in ρ; ω cannot already hold the
        -- digest, because a promoted twin would force the threshold ≤ 1
        have hnotime : ¬ currentSlot -
            (PendingReportEntry.mk report [report.guarantorPublicKey]
              currentSlot).submissionSlot >
            ONCHAIN_CONSTANTS.REPORT_TIMEOUT_SLOTS := by
          show ¬ currentSlot - currentSlot > (100 : Int)
          omega
        rw [hstay (Nat.lt_of_not_le hge) hnotime]
        have hnoomega :
            mapHas S.omega (generateWorkDigest hash report).hash = false := by
          cases homega : mapHas S.omega (generateWorkDigest hash report).hash with
          | false => rfl
          | true =>
            obtain ⟨oe, hoe⟩ := (mapHas_iff_get _ _).mp homega
            obtain ⟨hhash2, hreq2, hmem3⟩ :=
              hinv.omegaInv (generateWorkDigest hash report).hash oe hoe
            have hsig2 : report.toSignableObject = oe.report.toSignableObject :=
              hinj report hmem oe.report hmem3 hhash2.symm
            have hctx : report.refinementContext =
                oe.report.refinementContext :=
              congrArg SignableReport.refinementContext hsig2
            rw [hctx] at hge
            exact absurd (Nat.le_trans hreq2 (by simp)) hge
        constructor
        · intro d h1 h2
          rcases (mapHas_mapSet_iff _ _ _ _).mp h1 with hdk | h1'
          · subst hdk
            rw [hnoomega] at h2
            cases h2
          · exact hinv.disjRhoOmega d h1' h2
        · intro d h1 h2
          rcases (mapHas_mapSet_iff _ _ _ _).mp h1 with hdk | h1'
          · subst hdk
            rw [hxiF] at h2
            cases h2
          · exact hinv.disjRhoXi d h1' h2
        · intro d h1 h2
          exact hinv.disjOmegaXi d h1 h2
        · intro d e' he'
          by_cases hdk : d = (generateWorkDigest hash report).hash
          · subst hdk
            rw [mapGet_mapSet_self] at he'
            cases he'
            exact ⟨rfl, rfl, hmem⟩
          · rw [mapGet_mapSet_ne _ _ _ _ hdk] at he'
            exact hinv.rhoInv d e' he'
        · intro d e' he'
          exact hinv.omegaInv d e' he'

/-- Every extrinsic of a run whose guarantee reports lie in `reports`
preserves the invariant. -/
theorem run_preserves_inv (verify : SignableReport → String → String → Bool)
    (hash : SignableReport → String) (reports : List WorkReport)
    (hinj : HashInjOn hash reports) :
    ∀ (extrinsics : List Extrinsic) (S : OnchainState),
      (∀ r ∈ guaranteeReports extrinsics, r ∈ reports) →
      CoreInv hash reports S →
      CoreInv hash reports (runExtrinsics verify hash extrinsics S) := by
  intro extrinsics
  induction extrinsics with
  | nil => intro S _ hinv; exact hinv
  | cons e rest ih =>
    intro S hsub hinv
    rw [runExtrinsics, List.foldl_cons]
    cases e with
    | guarantee report currentSlot currentBlockDigests =>
      exact ih _ (fun r hr => hsub r (List.mem_cons_of_mem _ hr))
        (guarantee_preserves_inv verify hash reports report S currentSlot
          currentBlockDigests hinj
          (hsub report (List.mem_cons_self _ _)) hinv)
    | dispute payload currentSlot =>
      exact ih _ (fun r hr => hsub r hr)
        (dispute_preserves_inv hash reports payload S currentSlot hinv)
    | assurance payload currentSlot =>
      exact ih _ (fun r hr => hsub r hr) hinv
    | accumulate parseTransfer parseUpdate currentSlot =>
      exact ih _ (fun r hr => hsub r hr)
        (processAccumulationQueue_preserves_inv hash reports parseTransfer
          parseUpdate S currentSlot hinv)

/-- C1: bucket disjointness.  In every state reachable from the fresh
`OnchainState` by any sequence of Guarantee, Dispute, Assurance and
Accumulation calls — assuming only that the digests of the guaranteed
reports are collision-free, as SHA-256 guarantees — at most one of
ρ, ω, ξ contains any digest `d`.  In particular a Guarantee for a
report whose digest is already in ω never leaves an entry for that
digest in ρ. -/
theorem bucket_disjointness_reachable
    (verify : SignableReport → String → String → Bool)
    (hash : SignableReport → String) (extrinsics : List Extrinsic)
    (d : String) (hinj : HashInjOn hash (guaranteeReports extrinsics)) :
    ¬ (mapHas (runExtrinsics verify hash extrinsics initialOnchainState).rho d =
         true ∧
       mapHas (runExtrinsics verify hash extrinsics initialOnchainState).omega d =
         true) ∧
    ¬ (mapHas (runExtrinsics verify hash extrinsics initialOnchainState).rho d =
         true ∧
       mapHas (runExtrinsics verify hash extrinsics initialOnchainState).xi d =
         true) ∧
    ¬ (mapHas (runExtrinsics verify hash extrinsics initialOnchainState).omega d =
         true ∧
       mapHas (runExtrinsics verify hash extrinsics initialOnchainState).xi d =
         true) := by
  have hinv := run_preserves_inv verify hash (guaranteeReports extrinsics) hinj
    extrinsics initialOnchainState (fun r hr => hr)
    (coreInv_initial hash (guaranteeReports extrinsics))
  exact ⟨fun h => hinv.disjRhoOmega d h.1 h.2,
         fun h => hinv.disjRhoXi d h.1 h.2,
         fun h => hinv.disjOmegaXi d h.1 h.2⟩

/-- A run exercising the interesting path: promote `fixReport1` to ω,
re-guarantee it (the ρ entry is re-created and immediately re-promoted),
accumulate it into ξ, then attempt a fourth guarantee (rejected as a
finalized duplicate). -/
def fixRun : List Extrinsic :=
  [Extrinsic.guarantee fixReport1 100 [],
   Extrinsic.guarantee fixReport1 100 [],
   Extrinsic.accumulate fixParseTransfer fixParseUpdate 101,
   Extrinsic.guarantee fixReport1 102 []]

/-- Witness for C1 on the concrete run `fixRun` and the digest of
`fixReport1`. -/
theorem bucket_disjointness_reachable_witness :
    HashInjOn fixHash (guaranteeReports fixRun) ∧
    (¬ (mapHas (runExtrinsics fixVerify fixHash fixRun
          initialOnchainState).rho "digest-one" = true ∧
        mapHas (runExtrinsics fixVerify fixHash fixRun
          initialOnchainState).omega "digest-one" = true) ∧
     ¬ (mapHas (runExtrinsics fixVerify fixHash fixRun
          initialOnchainState).rho "digest-one" = true ∧
        mapHas (runExtrinsics fixVerify fixHash fixRun
          initialOnchainState).xi "digest-one" = true) ∧
     ¬ (mapHas (runExtrinsics fixVerify fixHash fixRun
          initialOnchainState).omega "digest-one" = true ∧
        mapHas (runExtrinsics fixVerify fixHash fixRun
          initialOnchainState).xi "digest-one" = true)) :=
  ⟨by decide,
   bucket_disjointness_reachable fixVerify fixHash fixRun "digest-one"
     (by decide)⟩
